import Mathlib

/-!
# Verification of the gb-en-compiler front end

A shallow embedding of the C sources of `gb-en-compiler` (tokenizer in
`src/utils.c` (lexer part), recursive-descent parser in `src/parser.c`,
scope-aware semantic checker in `src/semantic.c` together with the symbol
table, and the English renderer in `src/translator.c`), followed by theorems
about the embedded definitions.

Modelling conventions:
* C strings become Lean `String`/`List Char`; the lexer's index cursor into
  the source becomes the list of remaining characters (`Lexer.rem`), which is
  equivalent to the `current` index since the source is only read forward.
* `NULL` node pointers become `Option ASTNode`; the fixed-size `snprintf`
  buffers of the translator are modelled as unbounded strings (all rendered
  fragments in the theorems below are far below the C buffer sizes).
* Loops whose termination is not structural (the whitespace skipper, the
  token loop, and every parser function) take an explicit fuel argument;
  running out of fuel is the `none`/truncated result and models divergence.
* Diagnostics printed to `stderr` are modelled as accumulated values: the
  parser only keeps its `had_error` flag (exactly what the C code stores),
  the semantic analyzer keeps the ordered list of emitted diagnostics
  (`had_error` in C is set exactly when a diagnostic is printed, so
  `had_error = (diags ≠ [])`).
* `node->line`/`node->column` are set to 0 by `ast_create_node` and never
  updated anywhere in the repository, so AST nodes are modelled without
  these constant fields; the line number carried by a semantic diagnostic is
  likewise dropped (it is always 0).
-/

set_option maxHeartbeats 1000000
set_option maxRecDepth 100000

namespace GbEn

/-! ## Tokens (`lexer.h`)

The `TokenType` enumeration, with every constant the C sources use.
`TOKEN_EXTERNAL` stands for the C constant for the `extern` keyword. -/

inductive TokenType where
  | TOKEN_INT | TOKEN_CHAR | TOKEN_FLOAT | TOKEN_DOUBLE | TOKEN_VOID
  | TOKEN_IF | TOKEN_ELSE | TOKEN_WHILE | TOKEN_FOR | TOKEN_DO
  | TOKEN_RETURN | TOKEN_BREAK | TOKEN_CONTINUE
  | TOKEN_STRUCT | TOKEN_UNION | TOKEN_TYPEDEF | TOKEN_SIZEOF
  | TOKEN_CONST | TOKEN_STATIC | TOKEN_EXTERNAL
  | TOKEN_SWITCH | TOKEN_CASE | TOKEN_DEFAULT | TOKEN_ENUM | TOKEN_GOTO
  | TOKEN_SIGNED | TOKEN_UNSIGNED | TOKEN_LONG | TOKEN_SHORT
  | TOKEN_IDENTIFIER | TOKEN_NUMBER | TOKEN_STRING | TOKEN_CHAR_LITERAL
  | TOKEN_PLUS | TOKEN_MINUS | TOKEN_STAR | TOKEN_SLASH | TOKEN_PERCENT
  | TOKEN_ASSIGN | TOKEN_EQ | TOKEN_NE | TOKEN_LT | TOKEN_LE
  | TOKEN_GT | TOKEN_GE | TOKEN_AND | TOKEN_OR | TOKEN_NOT
  | TOKEN_AMPERSAND | TOKEN_PIPE | TOKEN_CARET | TOKEN_TILDE
  | TOKEN_QUESTION | TOKEN_COLON
  | TOKEN_INCREMENT | TOKEN_DECREMENT | TOKEN_ARROW | TOKEN_DOT
  | TOKEN_PLUS_ASSIGN | TOKEN_MINUS_ASSIGN | TOKEN_STAR_ASSIGN
  | TOKEN_SLASH_ASSIGN | TOKEN_PERCENT_ASSIGN | TOKEN_AND_ASSIGN
  | TOKEN_OR_ASSIGN | TOKEN_XOR_ASSIGN
  | TOKEN_SHL | TOKEN_SHR | TOKEN_SHL_ASSIGN | TOKEN_SHR_ASSIGN
  | TOKEN_LPAREN | TOKEN_RPAREN | TOKEN_LBRACE | TOKEN_RBRACE
  | TOKEN_LBRACKET | TOKEN_RBRACKET | TOKEN_SEMICOLON | TOKEN_COMMA
  | TOKEN_EOF | TOKEN_ERROR
  deriving DecidableEq, Repr

/-- `Token` from `lexer.h`. -/
structure Token where
  type : TokenType
  lexeme : String
  line : Nat
  column : Nat
  deriving DecidableEq, Repr

/-- Lexer state (`Lexer` in `lexer.h`): `rem` is the list of characters not
yet consumed, standing for `source + current`; `line`/`column` as in C. -/
structure Lexer where
  rem : List Char
  line : Nat
  column : Nat
  deriving DecidableEq, Repr

/-! ## Character classification (`utils.c`) -/

/-- ASCII `isalpha`. -/
def is_ascii_alpha (c : Char) : Bool :=
  ('a' ≤ c && c ≤ 'z') || ('A' ≤ c && c ≤ 'Z')

/-- `is_identifier_start` from `utils.c`: `isalpha(c) || c == '_'`. -/
def is_identifier_start (c : Char) : Bool :=
  is_ascii_alpha c || c = '_'

/-- `is_digit` from `utils.c`. -/
def is_digit (c : Char) : Bool :=
  '0' ≤ c && c ≤ '9'

/-- `is_identifier_char` from `utils.c`: `isalnum(c) || c == '_'`. -/
def is_identifier_char (c : Char) : Bool :=
  is_ascii_alpha c || is_digit c || c = '_'

/-! ## The keyword table (`lexer.c` part of `utils.c`) -/

def keywords : List (String × TokenType) :=
  [("int", .TOKEN_INT), ("char", .TOKEN_CHAR), ("float", .TOKEN_FLOAT),
   ("double", .TOKEN_DOUBLE), ("void", .TOKEN_VOID), ("if", .TOKEN_IF),
   ("else", .TOKEN_ELSE), ("while", .TOKEN_WHILE), ("for", .TOKEN_FOR),
   ("do", .TOKEN_DO), ("return", .TOKEN_RETURN), ("break", .TOKEN_BREAK),
   ("continue", .TOKEN_CONTINUE), ("struct", .TOKEN_STRUCT),
   ("union", .TOKEN_UNION), ("typedef", .TOKEN_TYPEDEF),
   ("sizeof", .TOKEN_SIZEOF), ("const", .TOKEN_CONST),
   ("static", .TOKEN_STATIC), ("extern", .TOKEN_EXTERNAL),
   ("switch", .TOKEN_SWITCH), ("case", .TOKEN_CASE),
   ("default", .TOKEN_DEFAULT), ("enum", .TOKEN_ENUM), ("goto", .TOKEN_GOTO),
   ("signed", .TOKEN_SIGNED), ("unsigned", .TOKEN_UNSIGNED),
   ("long", .TOKEN_LONG), ("short", .TOKEN_SHORT)]

/-- `check_keyword` from the lexer. -/
def check_keyword (lexeme : String) : TokenType :=
  match keywords.find? (fun kv => kv.1 == lexeme) with
  | some kv => kv.2
  | none => .TOKEN_IDENTIFIER

/-! ## Whitespace / comment / directive skipping (`skip_whitespace`) -/

/-- Skip to (but not over) the next newline: the `while (peek != '\n' &&
!is_at_end) advance;` loops used for `#` directives and `//` comments. -/
def skip_line : List Char → Nat → Nat → List Char × Nat × Nat
  | [], ln, col => ([], ln, col)
  | c :: rest, ln, col =>
    if c = '\n' then (c :: rest, ln, col)
    else skip_line rest ln (col + 1)

/-- Skip a block comment body up to and including the closing matched pair,
or to end of input (unterminated block comments are silently absorbed). -/
def skip_block : List Char → Nat → Nat → List Char × Nat × Nat
  | [], ln, col => ([], ln, col)
  | '*' :: '/' :: rest, ln, col => (rest, ln, col + 2)
  | c :: rest, ln, col =>
    if c = '\n' then skip_block rest (ln + 1) 1
    else skip_block rest ln (col + 1)

/-- `skip_whitespace` from the lexer; the fuel bounds the number of loop
iterations (each iteration consumes at least one character, so
`rem.length + 1` is always enough — `lexer_next_token` passes that). -/
def skip_ws : Nat → List Char → Nat → Nat → List Char × Nat × Nat
  | 0, rem, ln, col => (rem, ln, col)
  | _ + 1, [], ln, col => ([], ln, col)
  | fuel + 1, c :: rest, ln, col =>
    if c = ' ' || c = '\t' || c = '\r' then skip_ws fuel rest ln (col + 1)
    else if c = '\n' then skip_ws fuel rest (ln + 1) 1
    else if c = '#' then
      let r := skip_line (c :: rest) ln col
      skip_ws fuel r.1 r.2.1 r.2.2
    else if c = '/' then
      -- `peek_next` and the two comment forms
      match rest with
      | c2 :: rest2 =>
        if c2 = '/' then
          let r := skip_line (c :: rest) ln col
          skip_ws fuel r.1 r.2.1 r.2.2
        else if c2 = '*' then
          let r := skip_block rest2 ln (col + 2)
          skip_ws fuel r.1 r.2.1 r.2.2
        else (c :: rest, ln, col)
      | [] => (c :: rest, ln, col)
    else (c :: rest, ln, col)

/-! ## The scanners (`scan_identifier`, `scan_number`, `scan_string`,
`scan_char`) -/

/-- `scan_identifier`: maximal munch over identifier characters, then the
keyword table.  The C code re-reads `source[start..current)` for the lexeme;
here the consumed characters are the `takeWhile` prefix. -/
def scan_identifier (rem : List Char) (ln col : Nat) : Token × Lexer :=
  let cs := rem.takeWhile is_identifier_char
  let r := rem.dropWhile is_identifier_char
  let lexeme := String.mk cs
  (⟨check_keyword lexeme, lexeme, ln, col⟩, ⟨r, ln, col + cs.length⟩)

/-- `scan_number`: digits, then optionally a decimal point followed by at
least one digit, then more digits. -/
def scan_number (rem : List Char) (ln col : Nat) : Token × Lexer :=
  let ds := rem.takeWhile is_digit
  let r1 := rem.dropWhile is_digit
  match r1 with
  | '.' :: d :: r2 =>
    if is_digit d then
      let ds2 := (d :: r2).takeWhile is_digit
      let r3 := (d :: r2).dropWhile is_digit
      (⟨.TOKEN_NUMBER, String.mk (ds ++ '.' :: ds2), ln, col⟩,
       ⟨r3, ln, col + ds.length + 1 + ds2.length⟩)
    else
      (⟨.TOKEN_NUMBER, String.mk ds, ln, col⟩, ⟨r1, ln, col + ds.length⟩)
  | _ =>
    (⟨.TOKEN_NUMBER, String.mk ds, ln, col⟩, ⟨r1, ln, col + ds.length⟩)

/-- The body loop shared by `scan_string` and `scan_char`: consume until the
unescaped closing quote `q` (returned as part of the consumed prefix, with
the `true` flag) or end of input (`false` flag).  A backslash consumes the
following character without interpreting it. -/
def scan_quoted_body (q : Char) : List Char → Nat → Nat →
    List Char × List Char × Nat × Nat × Bool
  | [], ln, col => ([], [], ln, col, false)
  | c :: rest, ln, col =>
    if c = q then ([c], rest, ln, col + 1, true)
    else if c = '\\' then
      match rest with
      | [] => ([c], [], ln, col + 1, false)
      | d :: rest2 =>
        let p := if d = '\n' then (ln + 1, 1) else (ln, col + 2)
        let r := scan_quoted_body q rest2 p.1 p.2
        (c :: d :: r.1, r.2.1, r.2.2.1, r.2.2.2.1, r.2.2.2.2)
    else
      let p := if c = '\n' then (ln + 1, 1) else (ln, col + 1)
      let r := scan_quoted_body q rest p.1 p.2
      (c :: r.1, r.2.1, r.2.2.1, r.2.2.2.1, r.2.2.2.2)

/-- `scan_string`: `rem` starts at the opening quote. -/
def scan_string (rem : List Char) (ln col : Nat) : Token × Lexer :=
  match rem with
  | '"' :: rest =>
    let r := scan_quoted_body '"' rest ln (col + 1)
    if r.2.2.2.2 then
      (⟨.TOKEN_STRING, String.mk ('"' :: r.1), r.2.2.1, col⟩,
       ⟨r.2.1, r.2.2.1, r.2.2.2.1⟩)
    else
      (⟨.TOKEN_ERROR, "Unterminated string", r.2.2.1, col⟩,
       ⟨r.2.1, r.2.2.1, r.2.2.2.1⟩)
  | _ => (⟨.TOKEN_ERROR, "Unterminated string", ln, col⟩, ⟨rem, ln, col⟩)

/-- `scan_char`: identical loop with the single-quote terminator. -/
def scan_char (rem : List Char) (ln col : Nat) : Token × Lexer :=
  match rem with
  | '\'' :: rest =>
    let r := scan_quoted_body '\'' rest ln (col + 1)
    if r.2.2.2.2 then
      (⟨.TOKEN_CHAR_LITERAL, String.mk ('\'' :: r.1), r.2.2.1, col⟩,
       ⟨r.2.1, r.2.2.1, r.2.2.2.1⟩)
    else
      (⟨.TOKEN_ERROR, "Unterminated character literal", r.2.2.1, col⟩,
       ⟨r.2.1, r.2.2.1, r.2.2.2.1⟩)
  | _ =>
    (⟨.TOKEN_ERROR, "Unterminated character literal", ln, col⟩, ⟨rem, ln, col⟩)

/-! ## Operator / punctuation scanning: the big `switch` of
`lexer_next_token`.  `c` has already been consumed; `col0` is the start
column of the token, `col` the column after consuming `c`.  Each `match`
against a following character mirrors the C `match(lexer, ch)` helper. -/

def scan_operator (c : Char) (rest : List Char) (ln col0 col : Nat) :
    Token × Lexer :=
  let tok := fun (t : TokenType) (s : String) (r : List Char) (colf : Nat) =>
    ((⟨t, s, ln, col0⟩ : Token), (⟨r, ln, colf⟩ : Lexer))
  if c = '+' then
    match rest with
    | '+' :: r => tok .TOKEN_INCREMENT "++" r (col + 1)
    | '=' :: r => tok .TOKEN_PLUS_ASSIGN "+=" r (col + 1)
    | r => tok .TOKEN_PLUS "+" r col
  else if c = '-' then
    match rest with
    | '-' :: r => tok .TOKEN_DECREMENT "--" r (col + 1)
    | '>' :: r => tok .TOKEN_ARROW "->" r (col + 1)
    | '=' :: r => tok .TOKEN_MINUS_ASSIGN "-=" r (col + 1)
    | r => tok .TOKEN_MINUS "-" r col
  else if c = '*' then
    match rest with
    | '=' :: r => tok .TOKEN_STAR_ASSIGN "*=" r (col + 1)
    | r => tok .TOKEN_STAR "*" r col
  else if c = '/' then
    match rest with
    | '=' :: r => tok .TOKEN_SLASH_ASSIGN "/=" r (col + 1)
    | r => tok .TOKEN_SLASH "/" r col
  else if c = '%' then
    match rest with
    | '=' :: r => tok .TOKEN_PERCENT_ASSIGN "%=" r (col + 1)
    | r => tok .TOKEN_PERCENT "%" r col
  else if c = '=' then
    match rest with
    | '=' :: r => tok .TOKEN_EQ "==" r (col + 1)
    | r => tok .TOKEN_ASSIGN "=" r col
  else if c = '!' then
    match rest with
    | '=' :: r => tok .TOKEN_NE "!=" r (col + 1)
    | r => tok .TOKEN_NOT "!" r col
  else if c = '<' then
    match rest with
    | '<' :: '=' :: r => tok .TOKEN_SHL_ASSIGN "<<=" r (col + 2)
    | '<' :: r => tok .TOKEN_SHL "<<" r (col + 1)
    | '=' :: r => tok .TOKEN_LE "<=" r (col + 1)
    | r => tok .TOKEN_LT "<" r col
  else if c = '>' then
    match rest with
    | '>' :: '=' :: r => tok .TOKEN_SHR_ASSIGN ">>=" r (col + 2)
    | '>' :: r => tok .TOKEN_SHR ">>" r (col + 1)
    | '=' :: r => tok .TOKEN_GE ">=" r (col + 1)
    | r => tok .TOKEN_GT ">" r col
  else if c = '&' then
    match rest with
    | '&' :: r => tok .TOKEN_AND "&&" r (col + 1)
    | '=' :: r => tok .TOKEN_AND_ASSIGN "&=" r (col + 1)
    | r => tok .TOKEN_AMPERSAND "&" r col
  else if c = '|' then
    match rest with
    | '|' :: r => tok .TOKEN_OR "||" r (col + 1)
    | '=' :: r => tok .TOKEN_OR_ASSIGN "|=" r (col + 1)
    | r => tok .TOKEN_PIPE "|" r col
  else if c = '^' then
    match rest with
    | '=' :: r => tok .TOKEN_XOR_ASSIGN "^=" r (col + 1)
    | r => tok .TOKEN_CARET "^" r col
  else if c = '~' then tok .TOKEN_TILDE "~" rest col
  else if c = '?' then tok .TOKEN_QUESTION "?" rest col
  else if c = ':' then tok .TOKEN_COLON ":" rest col
  else if c = '.' then tok .TOKEN_DOT "." rest col
  else if c = '(' then tok .TOKEN_LPAREN "(" rest col
  else if c = ')' then tok .TOKEN_RPAREN ")" rest col
  else if c = '\x7b' then tok .TOKEN_LBRACE "\x7b" rest col
  else if c = '\x7d' then tok .TOKEN_RBRACE "\x7d" rest col
  else if c = '[' then tok .TOKEN_LBRACKET "[" rest col
  else if c = ']' then tok .TOKEN_RBRACKET "]" rest col
  else if c = ';' then tok .TOKEN_SEMICOLON ";" rest col
  else if c = ',' then tok .TOKEN_COMMA "," rest col
  else
    tok .TOKEN_ERROR ("Unexpected character: '" ++ String.mk [c] ++ "'")
      rest col

/-! ## `lexer_next_token` and `tokenize` -/

/-- `lexer_next_token` from the lexer part of `utils.c`. -/
def lexer_next_token (l : Lexer) : Token × Lexer :=
  let s := skip_ws (l.rem.length + 1) l.rem l.line l.column
  match s.1 with
  | [] => (⟨.TOKEN_EOF, "", s.2.1, s.2.2⟩, ⟨[], s.2.1, s.2.2⟩)
  | c :: rest =>
    if is_identifier_start c then scan_identifier (c :: rest) s.2.1 s.2.2
    else if is_digit c then scan_number (c :: rest) s.2.1 s.2.2
    else if c = '"' then scan_string (c :: rest) s.2.1 s.2.2
    else if c = '\'' then scan_char (c :: rest) s.2.1 s.2.2
    else
      -- `advance` has consumed `c` (no operator character is a newline
      -- here, and a raw newline would have been skipped above)
      scan_operator c rest s.2.1 s.2.2 (s.2.2 + 1)

/-- The `while (1)` token-collection loop of `tokenize`, with fuel. Running
out of fuel truncates the list (so a truncated run is recognisable by the
missing final end-of-stream/error token). -/
def tokenize_aux : Nat → Lexer → List Token
  | 0, _ => []
  | fuel + 1, l =>
    let r := lexer_next_token l
    if r.1.type = .TOKEN_EOF || r.1.type = .TOKEN_ERROR then [r.1]
    else r.1 :: tokenize_aux fuel r.2

/-- `lexer_create`. -/
def lexer_create (source : String) : Lexer := ⟨source.data, 1, 1⟩

/-- `tokenize` from `utils.c`.  One token consumes at least one character,
so `length + 1` rounds of fuel always reach the end-of-stream or error
token (proved below for claim C4). -/
def tokenize (source : String) : List Token :=
  tokenize_aux (source.length + 1) (lexer_create source)

/-- The token-kind sequence of a token list. -/
def tokKinds (ts : List Token) : List TokenType := ts.map Token.type

/-! ## The AST (`ast.h` / `ast.c`)

One constructor per `NodeType` constructed anywhere in the repository.
Child pointers that may be `NULL` in C become `Option ASTNode`.  `NODE_SIZEOF`
stores either a type name or an expression; the two `ast_create_sizeof_*`
constructors become two Lean constructors.  `ast_create_node` sets
`line = column = 0` and no code ever updates them, so the fields are dropped.
`NODE_CASE`/`NODE_DEFAULT` share the C `case_stmt` payload; argument arrays
of calls may store `NULL` entries (`args[i] = parse_expression(...)`), hence
`List (Option ASTNode)` there. -/

structure Parameter where
  type : String
  name : String
  is_array : Bool
  deriving DecidableEq, Repr

inductive ASTNode where
  | program (functions : List ASTNode)
  | function (return_type name : String) (parameters : List Parameter)
      (body : Option ASTNode)
  | declaration (data_type name : String) (is_array : Bool)
      (array_size initializer : Option ASTNode)
  | if_stmt (condition then_branch else_branch : Option ASTNode)
  | while_stmt (condition body : Option ASTNode)
  | do_while_stmt (body condition : Option ASTNode)
  | for_stmt (init condition increment body : Option ASTNode)
  | return_stmt (value : Option ASTNode)
  | block (statements : List ASTNode)
  | binary_op (op : String) (left right : Option ASTNode)
  | unary_op (op : String) (operand : Option ASTNode)
  | function_call (name : String) (arguments : List (Option ASTNode))
  | array_access (name : String) (index : Option ASTNode)
  | assignment (target value : Option ASTNode)
  | literal (value data_type : String)
  | identifier (name : String)
  | break_stmt
  | continue_stmt
  | struct_def (name : String) (is_union : Bool) (members : List ASTNode)
  | member_access (object : Option ASTNode) (member : String) (is_arrow : Bool)
  | switch_stmt (expression : Option ASTNode) (cases : List ASTNode)
  | case_stmt (value : Option ASTNode) (statements : List ASTNode)
  | default_stmt (statements : List ASTNode)
  | ternary (condition then_expr else_expr : Option ASTNode)
  | enum_def (name : String) (values : List String)
  | sizeof_type (type_name : String)
  | sizeof_expr (expression : Option ASTNode)
  | cast (target_type : String) (expression : Option ASTNode)
  | compound_assign (op : String) (target value : Option ASTNode)
  | goto_stmt (label : String)
  | label_stmt (name : String) (statement : Option ASTNode)
  | typedef_stmt (original_type new_name : String)
  deriving Repr

/-! ## Parser state and helpers (`parser.c`) -/

/-- `Parser` from `parser.h`: token array, cursor, error flag.  Parse-error
messages are printed to `stderr` in C and not stored, so only `had_error`
is kept. -/
structure Parser where
  tokens : List Token
  current : Nat
  had_error : Bool
  deriving DecidableEq, Repr

def dummy_token : Token := ⟨.TOKEN_EOF, "", 0, 0⟩

/-- `peek`: past the end, C returns `tokens[count - 1]`. -/
def peek (p : Parser) : Token :=
  if p.tokens.length ≤ p.current then p.tokens.getLastD dummy_token
  else p.tokens.getD p.current dummy_token

/-- `previous` (only called after a successful `advance`/`match`). -/
def previous (p : Parser) : Token :=
  p.tokens.getD (p.current - 1) dummy_token

def is_at_end (p : Parser) : Bool := (peek p).type = .TOKEN_EOF

/-- `advance`: move the cursor unless at end, return the previous token. -/
def advance (p : Parser) : Token × Parser :=
  let p' := if is_at_end p then p else { p with current := p.current + 1 }
  (previous p', p')

def check (p : Parser) (t : TokenType) : Bool :=
  if is_at_end p then false else (peek p).type = t

/-- `match` from `parser.c` (renamed: `match` is a Lean keyword). -/
def match_tok (p : Parser) (t : TokenType) : Bool × Parser :=
  if check p t then (true, (advance p).2) else (false, p)

/-- `match_multiple`: first matching type wins, in argument order. -/
def match_multiple (p : Parser) : List TokenType → Bool × Parser
  | [] => (false, p)
  | t :: rest =>
    if check p t then (true, (advance p).2) else match_multiple p rest

/-- `error_at`: report (to `stderr`) and set the error flag. -/
def error_at (p : Parser) : Parser := { p with had_error := true }

/-- `consume`: advance past an expected token or record an error. -/
def consume (p : Parser) (t : TokenType) : Option Token × Parser :=
  if check p t then
    let a := advance p
    (some a.1, a.2)
  else (none, error_at p)

/-- `is_type` from `parser.c`. -/
def is_type (t : TokenType) : Bool :=
  t = .TOKEN_INT || t = .TOKEN_CHAR || t = .TOKEN_FLOAT ||
  t = .TOKEN_DOUBLE || t = .TOKEN_VOID || t = .TOKEN_SIGNED ||
  t = .TOKEN_UNSIGNED || t = .TOKEN_LONG || t = .TOKEN_SHORT ||
  t = .TOKEN_STRUCT || t = .TOKEN_UNION || t = .TOKEN_ENUM ||
  t = .TOKEN_CONST

/-- `is_compound_assign` from `parser.c`. -/
def is_compound_assign (t : TokenType) : Bool :=
  t = .TOKEN_PLUS_ASSIGN || t = .TOKEN_MINUS_ASSIGN ||
  t = .TOKEN_STAR_ASSIGN || t = .TOKEN_SLASH_ASSIGN ||
  t = .TOKEN_PERCENT_ASSIGN || t = .TOKEN_AND_ASSIGN ||
  t = .TOKEN_OR_ASSIGN || t = .TOKEN_XOR_ASSIGN ||
  t = .TOKEN_SHL_ASSIGN || t = .TOKEN_SHR_ASSIGN

/-- The `while (match(parser, TOKEN_STAR)) strcat(type_str, "*")` loop of
the `sizeof(type)` branch of `parse_primary`. -/
def sizeof_stars : Nat → String → Parser → Option (String × Parser)
  | 0, _, _ => none
  | fuel + 1, s, p =>
    let m := match_tok p .TOKEN_STAR
    if m.1 then sizeof_stars fuel (s ++ "*") m.2 else some (s, p)

/-- `ast_add_case_statement` from `ast.c`. -/
def ast_add_case_statement (case_node stmt : ASTNode) : ASTNode :=
  match case_node with
  | .case_stmt v stmts => .case_stmt v (stmts ++ [stmt])
  | .default_stmt stmts => .default_stmt (stmts ++ [stmt])
  | n => n

/-! ## The recursive-descent parser functions.

Each function takes fuel first (the C code has no such bound: fuel `0` — the
`none` result — models a computation that did not finish).  The second
component of every result is the parser state after the call; the first is
the possibly-`NULL` node the C function returns. -/

mutual

/-- `parse_primary`. -/
def parse_primary : Nat → Parser → Option (Option ASTNode × Parser)
  | 0, _ => none
  | fuel + 1, p =>
    let m1 := match_tok p .TOKEN_NUMBER
    if m1.1 then some (some (.literal (previous m1.2).lexeme "number"), m1.2)
    else
    let m2 := match_tok p .TOKEN_STRING
    if m2.1 then some (some (.literal (previous m2.2).lexeme "string"), m2.2)
    else
    let m3 := match_tok p .TOKEN_CHAR_LITERAL
    if m3.1 then some (some (.literal (previous m3.2).lexeme "char"), m3.2)
    else
    let m4 := match_tok p .TOKEN_SIZEOF
    if m4.1 then
      let c1 := consume m4.2 .TOKEN_LPAREN
      if is_type (peek c1.2).type then
        let a := advance c1.2
        match sizeof_stars fuel a.1.lexeme a.2 with
        | none => none
        | some (ty, p) =>
          let c2 := consume p .TOKEN_RPAREN
          some (some (.sizeof_type ty), c2.2)
      else
        match parse_expression fuel c1.2 with
        | none => none
        | some (e, p) =>
          let c2 := consume p .TOKEN_RPAREN
          some (some (.sizeof_expr e), c2.2)
    else
    let m5 := match_tok p .TOKEN_IDENTIFIER
    if m5.1 then
      let name := (previous m5.2).lexeme
      let ml := match_tok m5.2 .TOKEN_LPAREN
      if ml.1 then
        if check ml.2 .TOKEN_RPAREN then
          let c := consume ml.2 .TOKEN_RPAREN
          some (some (.function_call name []), c.2)
        else
          match parse_args fuel [] ml.2 with
          | none => none
          | some (args, p) =>
            let c := consume p .TOKEN_RPAREN
            some (some (.function_call name args), c.2)
      else
        let mb := match_tok m5.2 .TOKEN_LBRACKET
        if mb.1 then
          match parse_expression fuel mb.2 with
          | none => none
          | some (idx, p) =>
            let c := consume p .TOKEN_RBRACKET
            some (some (.array_access name idx), c.2)
        else some (some (.identifier name), m5.2)
    else
    let m6 := match_tok p .TOKEN_LPAREN
    if m6.1 then
      match parse_expression fuel m6.2 with
      | none => none
      | some (e, p) =>
        let c := consume p .TOKEN_RPAREN
        some (e, c.2)
    else some (none, error_at p)
  termination_by structural fuel => fuel

/-- The `do { args[n++] = parse_expression(...) } while (match(COMMA))`
argument loop of `parse_primary`. -/
def parse_args : Nat → List (Option ASTNode) → Parser →
    Option (List (Option ASTNode) × Parser)
  | 0, _, _ => none
  | fuel + 1, acc, p =>
    match parse_expression fuel p with
    | none => none
    | some (arg, p) =>
      let acc := acc ++ [arg]
      let m := match_tok p .TOKEN_COMMA
      if m.1 then parse_args fuel acc m.2 else some (acc, p)
  termination_by structural fuel => fuel

/-- `parse_postfix`. -/
def parse_postfix : Nat → Parser → Option (Option ASTNode × Parser)
  | 0, _ => none
  | fuel + 1, p =>
    match parse_primary fuel p with
    | none => none
    | some (e, p) => postfix_loop fuel e p
  termination_by structural fuel => fuel

/-- The `while (1)` postfix-operator loop of `parse_postfix`. -/
def postfix_loop : Nat → Option ASTNode → Parser →
    Option (Option ASTNode × Parser)
  | 0, _, _ => none
  | fuel + 1, e, p =>
    let md := match_tok p .TOKEN_DOT
    if md.1 then
      let c := consume md.2 .TOKEN_IDENTIFIER
      match c.1 with
      | some member =>
        postfix_loop fuel (some (.member_access e member.lexeme false)) c.2
      | none => postfix_loop fuel e c.2
    else
    let ma := match_tok p .TOKEN_ARROW
    if ma.1 then
      let c := consume ma.2 .TOKEN_IDENTIFIER
      match c.1 with
      | some member =>
        postfix_loop fuel (some (.member_access e member.lexeme true)) c.2
      | none => postfix_loop fuel e c.2
    else
    let mb := match_tok p .TOKEN_LBRACKET
    if mb.1 then
      match parse_expression fuel mb.2 with
      | none => none
      | some (idx, p) =>
        let c := consume p .TOKEN_RBRACKET
        match e with
        | some (.identifier name) =>
          postfix_loop fuel (some (.array_access name idx)) c.2
        | _ => postfix_loop fuel (some (.binary_op "[]" e idx)) c.2
    else
    let mi := match_tok p .TOKEN_INCREMENT
    if mi.1 then postfix_loop fuel (some (.unary_op "++post" e)) mi.2
    else
    let mdec := match_tok p .TOKEN_DECREMENT
    if mdec.1 then postfix_loop fuel (some (.unary_op "--post" e)) mdec.2
    else some (e, p)
  termination_by structural fuel => fuel

/-- `parse_unary`. -/
def parse_unary : Nat → Parser → Option (Option ASTNode × Parser)
  | 0, _ => none
  | fuel + 1, p =>
    let m := match_multiple p
      [.TOKEN_NOT, .TOKEN_MINUS, .TOKEN_PLUS, .TOKEN_INCREMENT,
       .TOKEN_DECREMENT, .TOKEN_AMPERSAND, .TOKEN_TILDE]
    if m.1 then
      match parse_unary fuel m.2 with
      | none => none
      | some (operand, p) =>
        some (some (.unary_op (previous m.2).lexeme operand), p)
    else
    let ms := match_tok p .TOKEN_STAR
    if ms.1 then
      match parse_unary fuel ms.2 with
      | none => none
      | some (operand, p) => some (some (.unary_op "*" operand), p)
    else parse_postfix fuel p
  termination_by structural fuel => fuel

/-- `parse_factor` (multiplicative). -/
def parse_factor : Nat → Parser → Option (Option ASTNode × Parser)
  | 0, _ => none
  | fuel + 1, p =>
    match parse_unary fuel p with
    | none => none
    | some (left, p) => parse_factor_loop fuel left p
  termination_by structural fuel => fuel

def parse_factor_loop : Nat → Option ASTNode → Parser →
    Option (Option ASTNode × Parser)
  | 0, _, _ => none
  | fuel + 1, left, p =>
    let m := match_multiple p [.TOKEN_STAR, .TOKEN_SLASH, .TOKEN_PERCENT]
    if m.1 then
      match parse_unary fuel m.2 with
      | none => none
      | some (right, p) =>
        parse_factor_loop fuel
          (some (.binary_op (previous m.2).lexeme left right)) p
    else some (left, p)
  termination_by structural fuel => fuel

/-- `parse_term` (additive). -/
def parse_term : Nat → Parser → Option (Option ASTNode × Parser)
  | 0, _ => none
  | fuel + 1, p =>
    match parse_factor fuel p with
    | none => none
    | some (left, p) => parse_term_loop fuel left p
  termination_by structural fuel => fuel

def parse_term_loop : Nat → Option ASTNode → Parser →
    Option (Option ASTNode × Parser)
  | 0, _, _ => none
  | fuel + 1, left, p =>
    let m := match_multiple p [.TOKEN_PLUS, .TOKEN_MINUS]
    if m.1 then
      match parse_factor fuel m.2 with
      | none => none
      | some (right, p) =>
        parse_term_loop fuel
          (some (.binary_op (previous m.2).lexeme left right)) p
    else some (left, p)
  termination_by structural fuel => fuel

/-- `parse_shift`. -/
def parse_shift : Nat → Parser → Option (Option ASTNode × Parser)
  | 0, _ => none
  | fuel + 1, p =>
    match parse_term fuel p with
    | none => none
    | some (left, p) => parse_shift_loop fuel left p
  termination_by structural fuel => fuel

def parse_shift_loop : Nat → Option ASTNode → Parser →
    Option (Option ASTNode × Parser)
  | 0, _, _ => none
  | fuel + 1, left, p =>
    let m := match_multiple p [.TOKEN_SHL, .TOKEN_SHR]
    if m.1 then
      match parse_term fuel m.2 with
      | none => none
      | some (right, p) =>
        parse_shift_loop fuel
          (some (.binary_op (previous m.2).lexeme left right)) p
    else some (left, p)
  termination_by structural fuel => fuel

/-- `parse_comparison` (relational). -/
def parse_comparison : Nat → Parser → Option (Option ASTNode × Parser)
  | 0, _ => none
  | fuel + 1, p =>
    match parse_shift fuel p with
    | none => none
    | some (left, p) => parse_comparison_loop fuel left p
  termination_by structural fuel => fuel

def parse_comparison_loop : Nat → Option ASTNode → Parser →
    Option (Option ASTNode × Parser)
  | 0, _, _ => none
  | fuel + 1, left, p =>
    let m := match_multiple p [.TOKEN_GT, .TOKEN_GE, .TOKEN_LT, .TOKEN_LE]
    if m.1 then
      match parse_shift fuel m.2 with
      | none => none
      | some (right, p) =>
        parse_comparison_loop fuel
          (some (.binary_op (previous m.2).lexeme left right)) p
    else some (left, p)
  termination_by structural fuel => fuel

/-- `parse_equality`. -/
def parse_equality : Nat → Parser → Option (Option ASTNode × Parser)
  | 0, _ => none
  | fuel + 1, p =>
    match parse_comparison fuel p with
    | none => none
    | some (left, p) => parse_equality_loop fuel left p
  termination_by structural fuel => fuel

def parse_equality_loop : Nat → Option ASTNode → Parser →
    Option (Option ASTNode × Parser)
  | 0, _, _ => none
  | fuel + 1, left, p =>
    let m := match_multiple p [.TOKEN_EQ, .TOKEN_NE]
    if m.1 then
      match parse_comparison fuel m.2 with
      | none => none
      | some (right, p) =>
        parse_equality_loop fuel
          (some (.binary_op (previous m.2).lexeme left right)) p
    else some (left, p)
  termination_by structural fuel => fuel

/-- `parse_bitwise_and`. -/
def parse_bitwise_and : Nat → Parser → Option (Option ASTNode × Parser)
  | 0, _ => none
  | fuel + 1, p =>
    match parse_equality fuel p with
    | none => none
    | some (left, p) => parse_bitwise_and_loop fuel left p
  termination_by structural fuel => fuel

def parse_bitwise_and_loop : Nat → Option ASTNode → Parser →
    Option (Option ASTNode × Parser)
  | 0, _, _ => none
  | fuel + 1, left, p =>
    let m := match_tok p .TOKEN_AMPERSAND
    if m.1 then
      match parse_equality fuel m.2 with
      | none => none
      | some (right, p) =>
        parse_bitwise_and_loop fuel
          (some (.binary_op (previous m.2).lexeme left right)) p
    else some (left, p)
  termination_by structural fuel => fuel

/-- `parse_bitwise_xor`. -/
def parse_bitwise_xor : Nat → Parser → Option (Option ASTNode × Parser)
  | 0, _ => none
  | fuel + 1, p =>
    match parse_bitwise_and fuel p with
    | none => none
    | some (left, p) => parse_bitwise_xor_loop fuel left p
  termination_by structural fuel => fuel

def parse_bitwise_xor_loop : Nat → Option ASTNode → Parser →
    Option (Option ASTNode × Parser)
  | 0, _, _ => none
  | fuel + 1, left, p =>
    let m := match_tok p .TOKEN_CARET
    if m.1 then
      match parse_bitwise_and fuel m.2 with
      | none => none
      | some (right, p) =>
        parse_bitwise_xor_loop fuel
          (some (.binary_op (previous m.2).lexeme left right)) p
    else some (left, p)
  termination_by structural fuel => fuel

/-- `parse_bitwise_or`. -/
def parse_bitwise_or : Nat → Parser → Option (Option ASTNode × Parser)
  | 0, _ => none
  | fuel + 1, p =>
    match parse_bitwise_xor fuel p with
    | none => none
    | some (left, p) => parse_bitwise_or_loop fuel left p
  termination_by structural fuel => fuel

def parse_bitwise_or_loop : Nat → Option ASTNode → Parser →
    Option (Option ASTNode × Parser)
  | 0, _, _ => none
  | fuel + 1, left, p =>
    let m := match_tok p .TOKEN_PIPE
    if m.1 then
      match parse_bitwise_xor fuel m.2 with
      | none => none
      | some (right, p) =>
        parse_bitwise_or_loop fuel
          (some (.binary_op (previous m.2).lexeme left right)) p
    else some (left, p)
  termination_by structural fuel => fuel

/-- `parse_logical_and`. -/
def parse_logical_and : Nat → Parser → Option (Option ASTNode × Parser)
  | 0, _ => none
  | fuel + 1, p =>
    match parse_bitwise_or fuel p with
    | none => none
    | some (left, p) => parse_logical_and_loop fuel left p
  termination_by structural fuel => fuel

def parse_logical_and_loop : Nat → Option ASTNode → Parser →
    Option (Option ASTNode × Parser)
  | 0, _, _ => none
  | fuel + 1, left, p =>
    let m := match_tok p .TOKEN_AND
    if m.1 then
      match parse_bitwise_or fuel m.2 with
      | none => none
      | some (right, p) =>
        parse_logical_and_loop fuel
          (some (.binary_op (previous m.2).lexeme left right)) p
    else some (left, p)
  termination_by structural fuel => fuel

/-- `parse_logical_or`. -/
def parse_logical_or : Nat → Parser → Option (Option ASTNode × Parser)
  | 0, _ => none
  | fuel + 1, p =>
    match parse_logical_and fuel p with
    | none => none
    | some (left, p) => parse_logical_or_loop fuel left p
  termination_by structural fuel => fuel

def parse_logical_or_loop : Nat → Option ASTNode → Parser →
    Option (Option ASTNode × Parser)
  | 0, _, _ => none
  | fuel + 1, left, p =>
    let m := match_tok p .TOKEN_OR
    if m.1 then
      match parse_logical_and fuel m.2 with
      | none => none
      | some (right, p) =>
        parse_logical_or_loop fuel
          (some (.binary_op (previous m.2).lexeme left right)) p
    else some (left, p)
  termination_by structural fuel => fuel

/-- `parse_ternary`. -/
def parse_ternary : Nat → Parser → Option (Option ASTNode × Parser)
  | 0, _ => none
  | fuel + 1, p =>
    match parse_logical_or fuel p with
    | none => none
    | some (cond, p) =>
      let m := match_tok p .TOKEN_QUESTION
      if m.1 then
        match parse_expression fuel m.2 with
        | none => none
        | some (thenE, p) =>
          let c := consume p .TOKEN_COLON
          match parse_ternary fuel c.2 with
          | none => none
          | some (elseE, p) => some (some (.ternary cond thenE elseE), p)
      else some (cond, p)
  termination_by structural fuel => fuel

/-- `parse_assignment`. -/
def parse_assignment : Nat → Parser → Option (Option ASTNode × Parser)
  | 0, _ => none
  | fuel + 1, p =>
    match parse_ternary fuel p with
    | none => none
    | some (e, p) =>
      let m := match_tok p .TOKEN_ASSIGN
      if m.1 then
        match parse_assignment fuel m.2 with
        | none => none
        | some (v, p) => some (some (.assignment e v), p)
      else if is_compound_assign (peek p).type then
        let a := advance p
        match parse_assignment fuel a.2 with
        | none => none
        | some (v, p) => some (some (.compound_assign a.1.lexeme e v), p)
      else some (e, p)
  termination_by structural fuel => fuel

/-- `parse_expression`. -/
def parse_expression : Nat → Parser → Option (Option ASTNode × Parser)
  | 0, _ => none
  | fuel + 1, p => parse_assignment fuel p
  termination_by structural fuel => fuel

/-- `parse_block`. -/
def parse_block : Nat → Parser → Option (Option ASTNode × Parser)
  | 0, _ => none
  | fuel + 1, p =>
    match parse_block_loop fuel [] p with
    | none => none
    | some (stmts, p) =>
      let c := consume p .TOKEN_RBRACE
      some (some (.block stmts), c.2)
  termination_by structural fuel => fuel

/-- The statement-collection loop of `parse_block` (`NULL` statements are
not added: `if (stmt) ast_add_statement(...)`). -/
def parse_block_loop : Nat → List ASTNode → Parser →
    Option (List ASTNode × Parser)
  | 0, _, _ => none
  | fuel + 1, acc, p =>
    if !check p .TOKEN_RBRACE && !is_at_end p then
      match parse_statement fuel p with
      | none => none
      | some (stmt, p) =>
        let acc := match stmt with
          | some s => acc ++ [s]
          | none => acc
        parse_block_loop fuel acc p
    else some (acc, p)
  termination_by structural fuel => fuel

/-- `parse_statement`. -/
def parse_statement : Nat → Parser → Option (Option ASTNode × Parser)
  | 0, _ => none
  | fuel + 1, p =>
    -- variable declaration
    if is_type (peek p).type then
      let a := advance p
      let c := consume a.2 .TOKEN_IDENTIFIER
      match c.1 with
      | none => some (none, c.2)
      | some name_token =>
        let ty := a.1.lexeme
        let name := name_token.lexeme
        let mb := match_tok c.2 .TOKEN_LBRACKET
        if mb.1 then
          let step :=
            if check mb.2 .TOKEN_RBRACKET then some (none, mb.2)
            else parse_expression fuel mb.2
          match step with
          | none => none
          | some (size, p) =>
            let c1 := consume p .TOKEN_RBRACKET
            let c2 := consume c1.2 .TOKEN_SEMICOLON
            some (some (.declaration ty name true size none), c2.2)
        else
          let ma := match_tok c.2 .TOKEN_ASSIGN
          let step :=
            if ma.1 then parse_expression fuel ma.2
            else some (none, ma.2)
          match step with
          | none => none
          | some (ini, p) =>
            let c2 := consume p .TOKEN_SEMICOLON
            some (some (.declaration ty name false none ini), c2.2)
    else
    -- if statement
    let mif := match_tok p .TOKEN_IF
    if mif.1 then
      let c1 := consume mif.2 .TOKEN_LPAREN
      match parse_expression fuel c1.2 with
      | none => none
      | some (cond, p) =>
        let c2 := consume p .TOKEN_RPAREN
        let mlb := match_tok c2.2 .TOKEN_LBRACE
        let stepT := if mlb.1 then parse_block fuel mlb.2
                     else parse_statement fuel mlb.2
        match stepT with
        | none => none
        | some (thenB, p) =>
          let me := match_tok p .TOKEN_ELSE
          if me.1 then
            let mlb2 := match_tok me.2 .TOKEN_LBRACE
            let stepE := if mlb2.1 then parse_block fuel mlb2.2
                         else parse_statement fuel mlb2.2
            match stepE with
            | none => none
            | some (elseB, p) =>
              some (some (.if_stmt cond thenB elseB), p)
          else some (some (.if_stmt cond thenB none), p)
    else
    -- while statement
    let mw := match_tok p .TOKEN_WHILE
    if mw.1 then
      let c1 := consume mw.2 .TOKEN_LPAREN
      match parse_expression fuel c1.2 with
      | none => none
      | some (cond, p) =>
        let c2 := consume p .TOKEN_RPAREN
        let mlb := match_tok c2.2 .TOKEN_LBRACE
        let stepB := if mlb.1 then parse_block fuel mlb.2
                     else parse_statement fuel mlb.2
        match stepB with
        | none => none
        | some (body, p) => some (some (.while_stmt cond body), p)
    else
    -- for statement
    let mf := match_tok p .TOKEN_FOR
    if mf.1 then
      let c1 := consume mf.2 .TOKEN_LPAREN
      let stepI :=
        if !check c1.2 .TOKEN_SEMICOLON then
          if is_type (peek c1.2).type then parse_statement fuel c1.2
          else
            match parse_expression fuel c1.2 with
            | none => none
            | some (e, p) =>
              let cs := consume p .TOKEN_SEMICOLON
              some (e, cs.2)
        else some (none, (advance c1.2).2)
      match stepI with
      | none => none
      | some (ini, p) =>
        let stepC :=
          if !check p .TOKEN_SEMICOLON then parse_expression fuel p
          else some (none, p)
        match stepC with
        | none => none
        | some (cond, p) =>
          let cs := consume p .TOKEN_SEMICOLON
          let stepN :=
            if !check cs.2 .TOKEN_RPAREN then parse_expression fuel cs.2
            else some (none, cs.2)
          match stepN with
          | none => none
          | some (inc, p) =>
            let cr := consume p .TOKEN_RPAREN
            let mlb := match_tok cr.2 .TOKEN_LBRACE
            let stepB := if mlb.1 then parse_block fuel mlb.2
                         else parse_statement fuel mlb.2
            match stepB with
            | none => none
            | some (body, p) =>
              some (some (.for_stmt ini cond inc body), p)
    else
    -- return statement
    let mr := match_tok p .TOKEN_RETURN
    if mr.1 then
      let stepV :=
        if !check mr.2 .TOKEN_SEMICOLON then parse_expression fuel mr.2
        else some (none, mr.2)
      match stepV with
      | none => none
      | some (v, p) =>
        let cs := consume p .TOKEN_SEMICOLON
        some (some (.return_stmt v), cs.2)
    else
    -- break statement
    let mbk := match_tok p .TOKEN_BREAK
    if mbk.1 then
      let cs := consume mbk.2 .TOKEN_SEMICOLON
      some (some .break_stmt, cs.2)
    else
    -- continue statement
    let mc := match_tok p .TOKEN_CONTINUE
    if mc.1 then
      let cs := consume mc.2 .TOKEN_SEMICOLON
      some (some .continue_stmt, cs.2)
    else
    -- do-while statement
    let mdo := match_tok p .TOKEN_DO
    if mdo.1 then
      let mlb := match_tok mdo.2 .TOKEN_LBRACE
      let stepB := if mlb.1 then parse_block fuel mlb.2
                   else parse_statement fuel mlb.2
      match stepB with
      | none => none
      | some (body, p) =>
        let c1 := consume p .TOKEN_WHILE
        let c2 := consume c1.2 .TOKEN_LPAREN
        match parse_expression fuel c2.2 with
        | none => none
        | some (cond, p) =>
          let c3 := consume p .TOKEN_RPAREN
          let c4 := consume c3.2 .TOKEN_SEMICOLON
          some (some (.do_while_stmt body cond), c4.2)
    else
    -- switch statement
    let msw := match_tok p .TOKEN_SWITCH
    if msw.1 then
      let c1 := consume msw.2 .TOKEN_LPAREN
      match parse_expression fuel c1.2 with
      | none => none
      | some (e, p) =>
        let c2 := consume p .TOKEN_RPAREN
        let c3 := consume c2.2 .TOKEN_LBRACE
        match switch_loop fuel [] none c3.2 with
        | none => none
        | some (cases, p) =>
          let c4 := consume p .TOKEN_RBRACE
          some (some (.switch_stmt e cases), c4.2)
    else
    -- goto statement
    let mg := match_tok p .TOKEN_GOTO
    if mg.1 then
      let cl := consume mg.2 .TOKEN_IDENTIFIER
      let cs := consume cl.2 .TOKEN_SEMICOLON
      match cl.1 with
      | some lbl => some (some (.goto_stmt lbl.lexeme), cs.2)
      | none => some (none, cs.2)
    else
    -- label statement (identifier followed by a colon, with rewind)
    if check p .TOKEN_IDENTIFIER &&
        check ((advance p).2) .TOKEN_COLON then
      let lbl := advance p
      let a2 := advance lbl.2
      match parse_statement fuel a2.2 with
      | none => none
      | some (stmt, p) =>
        some (some (.label_stmt lbl.1.lexeme stmt), p)
    else
    -- block statement
    let mlb := match_tok p .TOKEN_LBRACE
    if mlb.1 then parse_block fuel mlb.2
    else
      -- expression statement
      match parse_expression fuel p with
      | none => none
      | some (e, p) =>
        let cs := consume p .TOKEN_SEMICOLON
        some (e, cs.2)
  termination_by structural fuel => fuel

/-- The case-collection loop of the `switch` branch of `parse_statement`.
`cur` is the case node the C code's `current_case` pointer refers to; it is
appended to `done` when the next case starts (the C code mutates it in
place inside the already-appended array — same resulting list). -/
def switch_loop : Nat → List ASTNode → Option ASTNode → Parser →
    Option (List ASTNode × Parser)
  | 0, _, _, _ => none
  | fuel + 1, done, cur, p =>
    if !check p .TOKEN_RBRACE && !is_at_end p then
      let mca := match_tok p .TOKEN_CASE
      if mca.1 then
        match parse_expression fuel mca.2 with
        | none => none
        | some (v, p) =>
          let cc := consume p .TOKEN_COLON
          switch_loop fuel (done ++ cur.toList) (some (.case_stmt v [])) cc.2
      else
        let mdf := match_tok p .TOKEN_DEFAULT
        if mdf.1 then
          let cc := consume mdf.2 .TOKEN_COLON
          switch_loop fuel (done ++ cur.toList) (some (.default_stmt [])) cc.2
        else
          match cur with
          | some cnode =>
            match parse_statement fuel p with
            | none => none
            | some (stmt, p) =>
              let cnode := match stmt with
                | some s => ast_add_case_statement cnode s
                | none => cnode
              switch_loop fuel done (some cnode) p
          | none =>
            switch_loop fuel done none (advance (error_at p)).2
    else some (done ++ cur.toList, p)
  termination_by structural fuel => fuel

end

/-- The parameter do-while loop of `parse_function` (`break` on a missing
type or name leaves the already-collected parameters in place). -/
def parse_params : Nat → List Parameter → Parser →
    Option (List Parameter × Parser)
  | 0, _, _ => none
  | fuel + 1, acc, p =>
    if !is_type (peek p).type then some (acc, error_at p)
    else
      let a := advance p
      let c := consume a.2 .TOKEN_IDENTIFIER
      match c.1 with
      | none => some (acc, c.2)
      | some pname =>
        let mb := match_tok c.2 .TOKEN_LBRACKET
        let s :=
          if mb.1 then (true, (consume mb.2 .TOKEN_RBRACKET).2)
          else (false, c.2)
        let acc := acc ++ [⟨a.1.lexeme, pname.lexeme, s.1⟩]
        let mc := match_tok s.2 .TOKEN_COMMA
        if mc.1 then parse_params fuel acc mc.2 else some (acc, s.2)

/-- `parse_function`. -/
def parse_function (fuel : Nat) (p : Parser) :
    Option (Option ASTNode × Parser) :=
  match fuel with
  | 0 => none
  | fuel + 1 =>
    if !is_type (peek p).type then some (none, error_at p)
    else
      let a := advance p
      let rt := a.1.lexeme
      let c := consume a.2 .TOKEN_IDENTIFIER
      match c.1 with
      | none => some (none, c.2)
      | some name_tok =>
        let cl := consume c.2 .TOKEN_LPAREN
        let stepP :=
          if check cl.2 .TOKEN_RPAREN then some (([] : List Parameter), cl.2)
          else parse_params fuel [] cl.2
        match stepP with
        | none => none
        | some (params, p) =>
          let cr := consume p .TOKEN_RPAREN
          let cb := consume cr.2 .TOKEN_LBRACE
          match parse_block fuel cb.2 with
          | none => none
          | some (body, p) =>
            some (some (.function rt name_tok.lexeme params body), p)

/-- The skip-to-next-function recovery loop of `parse`. -/
def parse_skip : Nat → Parser → Option Parser
  | 0, _ => none
  | fuel + 1, p =>
    if !is_at_end p && !is_type (peek p).type then
      parse_skip fuel (advance p).2
    else some p

/-- The top-level function-collection loop of `parse`. -/
def parse_loop : Nat → List ASTNode → Parser →
    Option (List ASTNode × Parser)
  | 0, _, _ => none
  | fuel + 1, funcs, p =>
    if is_at_end p then some (funcs, p)
    else
      match parse_function fuel p with
      | none => none
      | some (some f, p) => parse_loop fuel (funcs ++ [f]) p
      | some (none, p) =>
        match parse_skip fuel p with
        | none => none
        | some p => parse_loop fuel funcs p

/-- `parse`, with the final parser state exposed (`had_error`).  The C
function destroys the tree and returns `NULL` when any error was
recorded. -/
def parse_aux (fuel : Nat) (tokens : List Token) :
    Option (Option ASTNode × Parser) :=
  let p0 : Parser := ⟨tokens, 0, false⟩
  match parse_loop fuel [] p0 with
  | none => none
  | some (funcs, p) =>
    if p.had_error then some (none, p)
    else some (some (.program funcs), p)

/-- `parse` as the caller sees it: the returned root node or `NULL`. -/
def parse (fuel : Nat) (tokens : List Token) : Option (Option ASTNode) :=
  (parse_aux fuel tokens).map Prod.fst

/-! ## Symbol table (`symbol_table.h` / `symbol_table.c`) -/

/-- `Symbol`; `next` pointers become list order (newest first, since
`symbol_table_insert` prepends). -/
structure Symbol where
  name : String
  type : String
  scope : String
  line_declared : Nat
  is_function : Bool
  is_array : Bool
  deriving DecidableEq, Repr

/-- `symbol_create`: flags start at 0 (callers set them afterwards; here the
callers pass the final values directly). -/
def symbol_create (name type scope : String) (line : Nat) : Symbol :=
  ⟨name, type, scope, line, false, false⟩

/-- One `SymbolTable` (one scope).  The C `parent` pointer becomes position
in the analyzer's scope-chain list below. -/
structure SymbolTable where
  head : List Symbol
  scope_name : String
  deriving DecidableEq, Repr

/-- `symbol_table_lookup_local`: scan this scope's own list, first match
wins (= the most recently inserted one). -/
def symbol_table_lookup_local (t : SymbolTable) (name : String) :
    Option Symbol :=
  t.head.find? (fun s => s.name == name)

/-- `symbol_table_lookup`: current scope first, then each parent. -/
def symbol_table_lookup : List SymbolTable → String → Option Symbol
  | [], _ => none
  | t :: rest, name =>
    match symbol_table_lookup_local t name with
    | some s => some s
    | none => symbol_table_lookup rest name

/-! ## Semantic analyzer (`semantic.c`)

The analyzer owns the scope chain: `scopes` lists the current scope first
and the global scope last (the C `parent` pointers).  In C, `had_error` is
set exactly when a diagnostic is printed to `stderr`; the state keeps the
ordered diagnostic list instead, so `had_error = (diags ≠ [])`.  Each
diagnostic corresponds to one `semantic_error` format string (the line
number is dropped: every AST node keeps the `0` set by `ast_create_node`). -/

inductive SemDiag where
  | undeclared_variable (name : String)
  | undefined_function (name : String)
  | undeclared_array (name : String)
  | not_an_array (name : String)
  | duplicate_variable (name : String)
  | duplicate_function (name : String)
  deriving DecidableEq, Repr

structure SemState where
  scopes : List SymbolTable
  diags : List SemDiag
  deriving DecidableEq, Repr

/-- `semantic_error`. -/
def semantic_error (st : SemState) (d : SemDiag) : SemState :=
  { st with diags := st.diags ++ [d] }

/-- The scope `analyzer->current_scope` points to. -/
def current_scope (st : SemState) : SymbolTable :=
  st.scopes.headD ⟨[], "global"⟩

/-- The scope `analyzer->global_scope` points to (root of the chain). -/
def global_scope (st : SemState) : SymbolTable :=
  st.scopes.getLastD ⟨[], "global"⟩

/-- `symbol_table_insert` into the current scope (prepend). -/
def insert_current (st : SemState) (s : Symbol) : SemState :=
  match st.scopes with
  | [] => st
  | t :: rest => { st with scopes := { t with head := s :: t.head } :: rest }

def insert_last : List SymbolTable → Symbol → List SymbolTable
  | [], _ => []
  | [t], s => [{ t with head := s :: t.head }]
  | t :: rest, s => t :: insert_last rest s

/-- `symbol_table_insert` into the global scope. -/
def insert_global (st : SemState) (s : Symbol) : SemState :=
  { st with scopes := insert_last st.scopes s }

/-- `enter_scope`. -/
def enter_scope (st : SemState) (scope_name : String) : SemState :=
  { st with scopes := ⟨[], scope_name⟩ :: st.scopes }

/-- `exit_scope` (a no-op on the root scope, as in C). -/
def exit_scope (st : SemState) : SemState :=
  match st.scopes with
  | _ :: s :: rest => { st with scopes := s :: rest }
  | _ => st

/-- The fixed standard-library allow-list of `analyze_expression`. -/
def std_funcs : List String :=
  ["printf", "scanf", "strlen", "strcpy", "malloc", "free"]

mutual

/-- `analyze_expression` from `semantic.c` (the non-`NULL` case; the `NULL`
guard is `analyze_expr_opt`). -/
def analyze_expression (st : SemState) : ASTNode → SemState
  | .identifier name =>
    match symbol_table_lookup st.scopes name with
    | some _ => st
    | none => semantic_error st (.undeclared_variable name)
  | .binary_op _ l r => analyze_expr_opt (analyze_expr_opt st l) r
  | .unary_op _ o => analyze_expr_opt st o
  | .function_call name args =>
    let st1 :=
      match symbol_table_lookup_local (global_scope st) name with
      | some _ => st
      | none =>
        if std_funcs.contains name then st
        else semantic_error st (.undefined_function name)
    analyze_expr_opt_list st1 args
  | .array_access name idx =>
    let st1 :=
      match symbol_table_lookup st.scopes name with
      | none => semantic_error st (.undeclared_array name)
      | some s =>
        if !s.is_array then semantic_error st (.not_an_array name) else st
    analyze_expr_opt st1 idx
  | .assignment t v => analyze_expr_opt (analyze_expr_opt st t) v
  | .literal _ _ => st
  | _ => st
  termination_by structural n => n

/-- `analyze_expression` on a possibly-`NULL` node. -/
def analyze_expr_opt (st : SemState) : Option ASTNode → SemState
  | none => st
  | some n => analyze_expression st n
  termination_by structural o => o

/-- The argument loop of the `NODE_FUNCTION_CALL` case. -/
def analyze_expr_opt_list (st : SemState) :
    List (Option ASTNode) → SemState
  | [] => st
  | a :: rest => analyze_expr_opt_list (analyze_expr_opt st a) rest
  termination_by structural l => l

end

mutual

/-- `analyze_statement` from `semantic.c`; the `default` case analyzes the
node as an expression statement. -/
def analyze_statement (st : SemState) : ASTNode → SemState
  | .declaration dty name is_arr size ini =>
    let st1 :=
      match symbol_table_lookup_local (current_scope st) name with
      | some _ => semantic_error st (.duplicate_variable name)
      | none =>
        insert_current st
          { symbol_create name dty (current_scope st).scope_name 0 with
            is_array := is_arr }
    let st2 :=
      match ini with
      | some e => analyze_expression st1 e
      | none => st1
    match size with
    | some e => analyze_expression st2 e
    | none => st2
  | .if_stmt c t e =>
    let st1 := analyze_expr_opt st c
    let st2 := analyze_stmt_opt st1 t
    match e with
    | some eb => analyze_statement st2 eb
    | none => st2
  | .while_stmt c b => analyze_stmt_opt (analyze_expr_opt st c) b
  | .for_stmt i c n b =>
    let st1 :=
      match i with
      | some s => analyze_statement st s
      | none => st
    let st2 :=
      match c with
      | some e => analyze_expression st1 e
      | none => st1
    let st3 :=
      match n with
      | some e => analyze_expression st2 e
      | none => st2
    analyze_stmt_opt st3 b
  | .return_stmt v =>
    match v with
    | some e => analyze_expression st e
    | none => st
  | .block stmts => analyze_stmt_list st stmts
  | .break_stmt => st
  | .continue_stmt => st
  | n => analyze_expression st n
  termination_by structural n => n

/-- `analyze_statement` on a possibly-`NULL` node. -/
def analyze_stmt_opt (st : SemState) : Option ASTNode → SemState
  | none => st
  | some n => analyze_statement st n
  termination_by structural o => o

/-- The statement loop of the `NODE_BLOCK` case. -/
def analyze_stmt_list (st : SemState) : List ASTNode → SemState
  | [] => st
  | s :: rest => analyze_stmt_list (analyze_statement st s) rest
  termination_by structural l => l

end

/-- `analyze_function` from `semantic.c`.  On a duplicate global function
name it records the diagnostic and returns at once: the duplicate's
parameters and body are not analyzed. -/
def analyze_function (st : SemState) (node : ASTNode) : SemState :=
  match node with
  | .function rt name params body =>
    match symbol_table_lookup_local (global_scope st) name with
    | some _ => semantic_error st (.duplicate_function name)
    | none =>
      let st1 := insert_global st
        { symbol_create name rt "global" 0 with is_function := true }
      let st2 := enter_scope st1 name
      let st3 := params.foldl
        (fun s param =>
          insert_current s
            { symbol_create param.name param.type name 0 with
              is_array := param.is_array })
        st2
      let st4 := analyze_stmt_opt st3 body
      exit_scope st4
  | _ => st

/-- `analyze_node`: only `NODE_PROGRAM` does anything. -/
def analyze_node (st : SemState) (node : ASTNode) : SemState :=
  match node with
  | .program fs => fs.foldl analyze_function st
  | _ => st

def init_sem_state : SemState := ⟨[⟨[], "global"⟩], []⟩

/-- The diagnostics `analyze_semantics` emits for a (possibly `NULL`)
program tree. -/
def semantic_diags (program : Option ASTNode) : List SemDiag :=
  match program with
  | none => []
  | some prog => (analyze_node init_sem_state prog).diags

/-- `analyze_semantics`: `0` (failure) on a `NULL` tree, otherwise success
iff no diagnostic was recorded. -/
def analyze_semantics (program : Option ASTNode) : Bool :=
  match program with
  | none => false
  | some prog => (analyze_node init_sem_state prog).diags.isEmpty

/-- Modelled from the spec: the whole-tree reading of the failure-semantics
sentence ("checking never aborts early; it visits the entire tree and
accumulates all diagnostics"), under which even a function whose name
duplicates an earlier global function still has its parameters and body
checked after the duplicate diagnostic is recorded.  Used to compare the
implementation against the claim C1 text; it differs from
`analyze_function` only in the duplicate case. -/
def analyze_function_spec (st : SemState) (node : ASTNode) : SemState :=
  match node with
  | .function rt name params body =>
    let stepInto := fun (s0 : SemState) =>
      let st2 := enter_scope s0 name
      let st3 := params.foldl
        (fun s param =>
          insert_current s
            { symbol_create param.name param.type name 0 with
              is_array := param.is_array })
        st2
      let st4 := analyze_stmt_opt st3 body
      exit_scope st4
    match symbol_table_lookup_local (global_scope st) name with
    | some _ => stepInto (semantic_error st (.duplicate_function name))
    | none =>
      stepInto (insert_global st
        { symbol_create name rt "global" 0 with is_function := true })
  | _ => st

/-- Modelled from the spec: `analyze_node` under the whole-tree reading. -/
def analyze_node_spec (st : SemState) (node : ASTNode) : SemState :=
  match node with
  | .program fs => fs.foldl analyze_function_spec st
  | _ => st

/-- Modelled from the spec: the diagnostics of the whole-tree reading. -/
def semantic_diags_spec (program : Option ASTNode) : List SemDiag :=
  match program with
  | none => []
  | some prog => (analyze_node_spec init_sem_state prog).diags

/-! ## Translator (`translator.c`)

The growing output buffer becomes a `String`; the fixed `snprintf` buffer
sizes (512/1024/2048 bytes) are not modelled (no fragment in the theorems
approaches them).  A `NULL` expression renders as "nothing"; statement
dispatch on a `NULL` child (where the C code would dereference `NULL` when
testing `->type == NODE_BLOCK`, which cannot happen on parser output handed
over by `main`) falls through to the no-op `translate_statement(NULL)`. -/

structure TranslationContext where
  output : String
  indent_level : Nat
  deriving DecidableEq, Repr

/-- `append_output`. -/
def append_output (ctx : TranslationContext) (text : String) :
    TranslationContext :=
  { ctx with output := ctx.output ++ text }

/-- The per-level two-space indentation loop of `append_line`. -/
def indent_str : Nat → String
  | 0 => ""
  | n + 1 => "  " ++ indent_str n

/-- `append_line`. -/
def append_line (ctx : TranslationContext) (text : String) :
    TranslationContext :=
  append_output (append_output (append_output ctx (indent_str ctx.indent_level)) text) "\n"

/-- The phrase templates of `translate_binary_operator`, applied to the
already-rendered operands. -/
def translate_binary_template (op ls rs : String) : String :=
  if op = "+" then "the sum of " ++ ls ++ " and " ++ rs
  else if op = "-" then "the difference between " ++ ls ++ " and " ++ rs
  else if op = "*" then "the product of " ++ ls ++ " and " ++ rs
  else if op = "/" then ls ++ " divided by " ++ rs
  else if op = "%" then "the remainder when " ++ ls ++ " is divided by " ++ rs
  else if op = "==" then ls ++ " is equal to " ++ rs
  else if op = "!=" then ls ++ " is not equal to " ++ rs
  else if op = "<" then ls ++ " is less than " ++ rs
  else if op = "<=" then ls ++ " is less than or equal to " ++ rs
  else if op = ">" then ls ++ " is greater than " ++ rs
  else if op = ">=" then ls ++ " is greater than or equal to " ++ rs
  else if op = "&&" then "both " ++ ls ++ " and " ++ rs
  else if op = "||" then "either " ++ ls ++ " or " ++ rs
  else if op = "&" then "the bitwise AND of " ++ ls ++ " and " ++ rs
  else if op = "|" then "the bitwise OR of " ++ ls ++ " and " ++ rs
  else if op = "^" then "the bitwise XOR of " ++ ls ++ " and " ++ rs
  else if op = "<<" then ls ++ " left-shifted by " ++ rs ++ " bits"
  else if op = ">>" then ls ++ " right-shifted by " ++ rs ++ " bits"
  else ls ++ " " ++ op ++ " " ++ rs

/-- The phrase templates of `translate_unary_operator`. -/
def translate_unary_template (op os : String) : String :=
  if op = "!" then "not " ++ os
  else if op = "-" then "negative " ++ os
  else if op = "+" then os
  else if op = "++" then os ++ " incremented by 1"
  else if op = "--" then os ++ " decremented by 1"
  else if op = "++post" then "increment " ++ os ++ " by 1"
  else if op = "--post" then "decrement " ++ os ++ " by 1"
  else if op = "~" then "the bitwise complement of " ++ os
  else if op = "&" then "the address of " ++ os
  else if op = "*" then
    "the value stored at the memory location referenced by " ++ os
  else op ++ " " ++ os

/-- The phrase templates of the `NODE_COMPOUND_ASSIGN` case. -/
def translate_compound_template (op ts vs : String) : String :=
  if op = "+=" then "increase " ++ ts ++ " by " ++ vs
  else if op = "-=" then "decrease " ++ ts ++ " by " ++ vs
  else if op = "*=" then "multiply " ++ ts ++ " by " ++ vs
  else if op = "/=" then "divide " ++ ts ++ " by " ++ vs
  else if op = "%=" then
    "set " ++ ts ++ " to the remainder when divided by " ++ vs
  else if op = "&=" then "bitwise AND " ++ ts ++ " with " ++ vs
  else if op = "|=" then "bitwise OR " ++ ts ++ " with " ++ vs
  else if op = "^=" then "bitwise XOR " ++ ts ++ " with " ++ vs
  else if op = "<<=" then "left-shift " ++ ts ++ " by " ++ vs ++ " bits"
  else if op = ">>=" then "right-shift " ++ ts ++ " by " ++ vs ++ " bits"
  else "apply " ++ op ++ " to " ++ ts ++ " with " ++ vs

/-- The constant entries of the standard-library call table of
`translate_function_call` (the `printf`/`scanf`/`strlen` cases inspect
arguments and are handled in `translate_expr_node`). -/
def std_call_desc (name : String) : Option String :=
  if name = "strcpy" then some "copy one text string to another"
  else if name = "malloc" then some "allocate memory dynamically"
  else if name = "free" then some "release previously allocated memory"
  else if name = "strcmp" then some "compare two text strings"
  else if name = "strncmp" then
    some "compare a specified number of characters in two text strings"
  else if name = "strcat" then some "concatenate two text strings"
  else if name = "strncpy" then
    some "copy a specified number of characters from one text string to another"
  else if name = "sprintf" then some "format text and store it in a string"
  else if name = "fprintf" then some "write formatted output to a file"
  else if name = "fscanf" then some "read formatted input from a file"
  else if name = "fopen" then some "open a file"
  else if name = "fclose" then some "close an open file"
  else if name = "fread" then some "read data from a file"
  else if name = "fwrite" then some "write data to a file"
  else if name = "fgets" then some "read a line of text from a file"
  else if name = "fputs" then some "write a line of text to a file"
  else if name = "feof" then some "check if end of file has been reached"
  else if name = "fseek" then some "move the file position indicator"
  else if name = "ftell" then some "get the current file position"
  else if name = "rewind" then
    some "reset the file position to the beginning"
  else if name = "calloc" then some "allocate and initialise memory to zero"
  else if name = "realloc" then some "resize previously allocated memory"
  else if name = "memcpy" then some "copy a block of memory"
  else if name = "memset" then
    some "fill a block of memory with a specified value"
  else if name = "memcmp" then some "compare two blocks of memory"
  else if name = "atoi" then some "convert text to an integer"
  else if name = "atof" then some "convert text to a floating-point number"
  else if name = "atol" then some "convert text to a long integer"
  else if name = "itoa" then some "convert an integer to text"
  else if name = "abs" then some "calculate the absolute value"
  else if name = "sqrt" then some "calculate the square root"
  else if name = "pow" then some "raise a number to a power"
  else if name = "sin" then some "calculate the sine"
  else if name = "cos" then some "calculate the cosine"
  else if name = "tan" then some "calculate the tangent"
  else if name = "log" then some "calculate the natural logarithm"
  else if name = "exp" then some "calculate the exponential"
  else if name = "ceil" then some "round up to the nearest integer"
  else if name = "floor" then some "round down to the nearest integer"
  else if name = "rand" then some "generate a pseudo-random number"
  else if name = "srand" then some "seed the random number generator"
  else if name = "time" then some "get the current time"
  else if name = "exit" then some "terminate the programme"
  else if name = "assert" then some "verify a condition and abort if false"
  else if name = "getchar" then
    some "read a character from standard input"
  else if name = "putchar" then
    some "write a character to standard output"
  else if name = "puts" then some "write a string to standard output"
  else if name = "gets" then some "read a string from standard input"
  else if name = "isalpha" then some "check if a character is alphabetic"
  else if name = "isdigit" then some "check if a character is a digit"
  else if name = "isspace" then some "check if a character is whitespace"
  else if name = "toupper" then some "convert a character to uppercase"
  else if name = "tolower" then some "convert a character to lowercase"
  else if name = "qsort" then some "sort an array using quicksort"
  else if name = "bsearch" then
    some "search a sorted array using binary search"
  else none

mutual

/-- `translate_expression` (takes the possibly-`NULL` pointer). -/
def translate_expression : Option ASTNode → String
  | none => "nothing"
  | some n => translate_expr_node n
  termination_by structural o => o

/-- The `switch (node->type)` body of `translate_expression`. -/
def translate_expr_node : ASTNode → String
  | .literal value data_type =>
    if data_type = "number" then "the value " ++ value
    else if data_type = "string" then value
    else if data_type = "char" then "the character " ++ value
    else value
  | .identifier name => "'" ++ name ++ "'"
  | .binary_op op l r =>
    translate_binary_template op (translate_expression l)
      (translate_expression r)
  | .unary_op op o => translate_unary_template op (translate_expression o)
  | .function_call name args =>
    if name = "printf" then
      match args with
      | arg0 :: _ =>
        match arg0 with
        | some (.literal value _) => "display the message " ++ value
        | _ => "display formatted output to the user"
      | [] => "display output to the user"
    else if name = "scanf" then "read input from the user"
    else if name = "strlen" then
      match args with
      | arg0 :: _ =>
        "determine the length of the text stored in " ++
          translate_expression arg0
      | [] => "determine the length of a text string"
    else
      match std_call_desc name with
      | some desc => desc
      | none =>
        match args with
        | [] => "call the '" ++ name ++ "' function"
        | _ =>
          "call the '" ++ name ++ "' function with arguments " ++
            translate_args_str args
  | .array_access name idx =>
    "the element at position " ++ translate_expression idx ++
      " in the array '" ++ name ++ "'"
  | .assignment t v =>
    "set " ++ translate_expression t ++ " to " ++ translate_expression v
  | .member_access obj member is_arrow =>
    if is_arrow then
      "the '" ++ member ++ "' member of the structure pointed to by " ++
        translate_expression obj
    else "the '" ++ member ++ "' member of " ++ translate_expression obj
  | .ternary c t e =>
    "if " ++ translate_expression c ++ " then " ++ translate_expression t ++
      ", otherwise " ++ translate_expression e
  | .sizeof_type type_name => "the size in bytes of type '" ++ type_name ++ "'"
  | .sizeof_expr e => "the size in bytes of " ++ translate_expression e
  | .cast target_type e =>
    translate_expression e ++ " converted to type '" ++ target_type ++ "'"
  | .compound_assign op t v =>
    translate_compound_template op (translate_expression t)
      (translate_expression v)
  | _ => "an expression"
  termination_by structural n => n

/-- The `", "`-separated argument rendering of the generic call case. -/
def translate_args_str : List (Option ASTNode) → String
  | [] => ""
  | [a] => translate_expression a
  | a :: rest => translate_expression a ++ ", " ++ translate_args_str rest
  termination_by structural l => l

end

/-- `line[0]` upper-casing of the expression-statement case. -/
def capitalize_first (s : String) : String :=
  match s.data with
  | [] => s
  | c :: rest =>
    if 'a' ≤ c && c ≤ 'z' then
      String.mk (Char.ofNat (c.toNat - 'a'.toNat + 'A'.toNat) :: rest)
    else s

/-- `step_prefix` of `translate_statement`. -/
def step_pfx (step_number : Nat) : String :=
  if step_number > 0 then toString step_number ++ ". " else ""

mutual

/-- `translate_statement` (takes the possibly-`NULL` pointer). -/
def translate_statement (ctx : TranslationContext) :
    Option ASTNode → Nat → TranslationContext
  | none, _ => ctx
  | some n, step_number => translate_stmt_node ctx n step_number
  termination_by structural o => o

/-- Statement sequence rendered without numbering (inside branches and
loop bodies). -/
def translate_stmt_items (ctx : TranslationContext) :
    List ASTNode → TranslationContext
  | [] => ctx
  | s :: rest => translate_stmt_items (translate_stmt_node ctx s 0) rest
  termination_by structural l => l

/-- The `NODE_BLOCK` statement loop: statement `i` is numbered `i + 1`
when the block itself was entered with a positive step number. -/
def translate_stmt_seq (ctx : TranslationContext) :
    List ASTNode → Bool → Nat → TranslationContext
  | [], _, _ => ctx
  | s :: rest, numbered, i =>
    translate_stmt_seq (translate_stmt_node ctx s (if numbered then i else 0))
      rest numbered (i + 1)
  termination_by structural l => l

/-- The case loop of the `NODE_SWITCH` statement. -/
def translate_switch_cases (ctx : TranslationContext) :
    List ASTNode → TranslationContext
  | [] => ctx
  | c :: rest =>
    let ctx1 :=
      match c with
      | .case_stmt v stmts =>
        let c1 := append_line ctx ("When it equals " ++
          translate_expression v ++ ":")
        let c2 := { c1 with indent_level := c1.indent_level + 1 }
        let c3 := translate_stmt_items c2 stmts
        { c3 with indent_level := c3.indent_level - 1 }
      | .default_stmt stmts =>
        let c1 := append_line ctx "Otherwise (default):"
        let c2 := { c1 with indent_level := c1.indent_level + 1 }
        let c3 := translate_stmt_items c2 stmts
        { c3 with indent_level := c3.indent_level - 1 }
      | _ =>
        let c1 := append_line ctx "Otherwise (default):"
        c1
    translate_switch_cases ctx1 rest
  termination_by structural l => l

/-- The `switch (node->type)` body of `translate_statement`. -/
def translate_stmt_node (ctx : TranslationContext) :
    ASTNode → Nat → TranslationContext
  | .declaration data_type name is_array array_size initializer, step =>
    let line :=
      if is_array then
        step_pfx step ++ "Declare an array named '" ++ name ++ "' of type " ++
          data_type ++ " with " ++ translate_expression array_size ++
          " elements."
      else
        match initializer with
        | some ini =>
          step_pfx step ++ "Declare a variable named '" ++ name ++
            "' of type " ++ data_type ++ ", initialised to " ++
            translate_expr_node ini ++ "."
        | none =>
          step_pfx step ++ "Declare a variable named '" ++ name ++
            "' of type " ++ data_type ++ "."
    append_line (append_line ctx line) ""
  | .if_stmt condition then_branch else_branch, step =>
    let c1 := append_line ctx (step_pfx step ++ "If the condition \"" ++
      translate_expression condition ++ "\" is true, then:")
    let c2 := { c1 with indent_level := c1.indent_level + 1 }
    let c3 :=
      match then_branch with
      | some (.block stmts) => translate_stmt_items c2 stmts
      | some tb => translate_stmt_node c2 tb 0
      | none => c2
    let c4 := { c3 with indent_level := c3.indent_level - 1 }
    let c5 :=
      match else_branch with
      | some (.block stmts) =>
        let d1 := append_line c4 "  Otherwise:"
        let d2 := { d1 with indent_level := d1.indent_level + 1 }
        let d3 := translate_stmt_items d2 stmts
        { d3 with indent_level := d3.indent_level - 1 }
      | some eb =>
        let d1 := append_line c4 "  Otherwise:"
        let d2 := { d1 with indent_level := d1.indent_level + 1 }
        let d3 := translate_stmt_node d2 eb 0
        { d3 with indent_level := d3.indent_level - 1 }
      | none => c4
    append_line c5 ""
  | .while_stmt condition body, step =>
    let c1 := append_line ctx (step_pfx step ++ "Whilst the condition \"" ++
      translate_expression condition ++
      "\" remains true, repeatedly perform the following:")
    let c2 := { c1 with indent_level := c1.indent_level + 1 }
    let c3 :=
      match body with
      | some (.block stmts) => translate_stmt_items c2 stmts
      | some b => translate_stmt_node c2 b 0
      | none => c2
    let c4 := { c3 with indent_level := c3.indent_level - 1 }
    append_line c4 ""
  | .for_stmt ini condition increment body, step =>
    let init_str :=
      match ini with
      | some i => translate_expr_node i
      | none => "nothing"
    let cond_str :=
      match condition with
      | some c => translate_expr_node c
      | none => "true"
    let inc_str :=
      match increment with
      | some i => translate_expr_node i
      | none => "nothing"
    let c1 := append_line ctx (step_pfx step ++ "Beginning with " ++
      init_str ++ ", and continuing whilst the condition \"" ++ cond_str ++
      "\" holds, repeatedly perform the following operations, and after each iteration " ++
      inc_str ++ ":")
    let c2 := { c1 with indent_level := c1.indent_level + 1 }
    let c3 :=
      match body with
      | some (.block stmts) => translate_stmt_items c2 stmts
      | some b => translate_stmt_node c2 b 0
      | none => c2
    let c4 := { c3 with indent_level := c3.indent_level - 1 }
    append_line c4 ""
  | .return_stmt value, step =>
    let line :=
      match value with
      | some v => step_pfx step ++ "Return " ++ translate_expr_node v ++ "."
      | none => step_pfx step ++ "Return (void)."
    append_line (append_line ctx line) ""
  | .break_stmt, _ =>
    append_line (append_line ctx "Exit the loop immediately.") ""
  | .continue_stmt, _ =>
    append_line (append_line ctx "Skip to the next iteration of the loop.") ""
  | .do_while_stmt body condition, step =>
    let c1 := append_line ctx (step_pfx step ++
      "Repeatedly perform the following:")
    let c2 := { c1 with indent_level := c1.indent_level + 1 }
    let c3 :=
      match body with
      | some (.block stmts) => translate_stmt_items c2 stmts
      | some b => translate_stmt_node c2 b 0
      | none => c2
    let c4 := { c3 with indent_level := c3.indent_level - 1 }
    let c5 := append_line c4 ("Continue whilst the condition \"" ++
      translate_expression condition ++ "\" remains true.")
    append_line c5 ""
  | .switch_stmt expression cases, step =>
    let c1 := append_line ctx (step_pfx step ++ "Depending on the value of " ++
      translate_expression expression ++ ":")
    let c2 := { c1 with indent_level := c1.indent_level + 1 }
    let c3 := translate_switch_cases c2 cases
    let c4 := { c3 with indent_level := c3.indent_level - 1 }
    append_line c4 ""
  | .goto_stmt label, step =>
    append_line (append_line ctx (step_pfx step ++ "Jump to label '" ++
      label ++ "'.")) ""
  | .label_stmt name statement, _ =>
    let c1 := append_line ctx ("Label '" ++ name ++ "':")
    translate_statement c1 statement 0
  | .block stmts, step => translate_stmt_seq ctx stmts (step > 0) 1
  | n, step =>
    let line := capitalize_first (step_pfx step ++ translate_expr_node n ++ ".")
    append_line (append_line ctx line) ""
  termination_by structural n => n

end

/-- `translate_function`. -/
def translate_function (ctx : TranslationContext) (node : ASTNode) :
    TranslationContext :=
  match node with
  | .function return_type name params body =>
    let header := "Function: " ++ name
    let c1 := append_line ctx header
    let c2 := append_output c1 (String.mk (List.replicate header.length '-'))
    let c3 := append_output c2 "\n"
    let desc :=
      match params with
      | [] =>
        "This function accepts no parameters and returns a value of type " ++
          return_type ++ "."
      | [param] =>
        "This function accepts one parameter named '" ++ param.name ++
          "' of type " ++ param.type ++
          (if param.is_array then " (array)" else "") ++
          ", and returns a value of type " ++ return_type ++ "."
      | _ =>
        "This function accepts " ++ toString params.length ++
          " parameters and returns a value of type " ++ return_type ++ "."
    let c4 := append_line (append_line c3 desc) ""
    let c5 :=
      if params.length > 1 then
        let d1 := append_line c4 "Parameters:"
        let d2 := params.foldl
          (fun cx param =>
            append_line cx ("  â€¢ '" ++ param.name ++ "': " ++ param.type ++
              (if param.is_array then " (array)" else "")))
          d1
        append_line d2 ""
      else c4
    let c6 :=
      if name = "main" then
        append_line
          (append_line c5 "This is the main entry point of the programme.") ""
      else c5
    let c7 := append_line (append_line c6
      "The function performs the following steps:") ""
    let c8 :=
      match body with
      | some (.block stmts) =>
        let d1 := { c7 with indent_level := 1 }
        let d2 := translate_stmt_seq d1 stmts true 1
        { d2 with indent_level := 0 }
      | _ => c7
    append_line c8 ""
  | _ => ctx

/-- `translate_to_english` from `translator.c`. -/
def translate_to_english (program : Option ASTNode) : String :=
  match program with
  | some (.program fs) =>
    let ctx : TranslationContext := ⟨"", 0⟩
    let c1 := append_line ctx "Programme Description"
    let c2 := append_line c1 "====================="
    let c3 := append_line c2 ""
    let c4 :=
      if fs.length = 1 then
        append_line c3 "This programme consists of one function."
      else
        append_line c3 ("This programme consists of " ++ toString fs.length ++
          " functions.")
    let c5 := append_line c4 ""
    (fs.foldl translate_function c5).output
  | _ => "Error: Invalid programme structure.\n"

/-! ## Pipeline compositions and claim-support definitions -/

/-- Tokenize, parse, translate (what `main` does between I/O steps, for a
given parser fuel); the empty string stands for a parse run that did not
finish within the fuel. -/
def render_of (src : String) (fuel : Nat) : String :=
  match parse fuel (tokenize src) with
  | some p => translate_to_english p
  | none => ""

/-- Tokenize, parse, check: the overall semantic-check verdict for a
source string. -/
def check_src (src : String) (fuel : Nat) : Bool :=
  match parse fuel (tokenize src) with
  | some p => analyze_semantics p
  | none => false

/-- Tokenize, parse, check: the emitted semantic diagnostics. -/
def check_src_diags (src : String) (fuel : Nat) : List SemDiag :=
  match parse fuel (tokenize src) with
  | some p => semantic_diags p
  | none => []

/-- Whether a node is the `NODE_PROGRAM` root shape that
`translate_to_english` accepts. -/
def is_program_node : ASTNode → Bool
  | .program _ => true
  | _ => false

/-- The node kinds that reach the `default` arm of the
`translate_expression` dispatch switch. -/
def expr_unhandled : ASTNode → Bool
  | .literal _ _ => false
  | .identifier _ => false
  | .binary_op _ _ _ => false
  | .unary_op _ _ => false
  | .function_call _ _ => false
  | .array_access _ _ => false
  | .assignment _ _ => false
  | .member_access _ _ _ => false
  | .ternary _ _ _ => false
  | .sizeof_type _ => false
  | .sizeof_expr _ => false
  | .cast _ _ => false
  | .compound_assign _ _ _ => false
  | _ => true

/-- Claim C5's concatenation: every lexeme in order, excluding the
end-of-stream token. -/
def concat_lexemes (ts : List Token) : String :=
  String.join ((ts.filter (fun t => t.type != .TOKEN_EOF)).map Token.lexeme)

/-- The token list of the parser-divergence source of claim C2. -/
def c2_tokens : List Token := tokenize "int f(){)}"

/-- The parser state claim C2's `parse_block` loop gets stuck in: cursor on
the stray `)` (token index 5), with either value of the error flag. -/
def c2_stuck (h : Bool) : Parser := ⟨c2_tokens, 5, h⟩

end GbEn

namespace GbEn

/-! # Theorems -/

/-- Claim C8: operator lexing is greedy longest-match over the 1-to-3
character operator table — `<<=` lexes as the single shift-left-assign
token, `<<` as shift-left, `<=` as less-or-equal, `<` as less-than — and an
unrecognized character yields a lexical-error token whose text is a
diagnostic message. -/
theorem claim_C8 :
    tokenize "<<=" = [⟨.TOKEN_SHL_ASSIGN, "<<=", 1, 1⟩, ⟨.TOKEN_EOF, "", 1, 4⟩] ∧
    tokenize "<<" = [⟨.TOKEN_SHL, "<<", 1, 1⟩, ⟨.TOKEN_EOF, "", 1, 3⟩] ∧
    tokenize "<=" = [⟨.TOKEN_LE, "<=", 1, 1⟩, ⟨.TOKEN_EOF, "", 1, 3⟩] ∧
    tokenize "<" = [⟨.TOKEN_LT, "<", 1, 1⟩, ⟨.TOKEN_EOF, "", 1, 2⟩] ∧
    tokKinds (tokenize "a<<=b") =
      [.TOKEN_IDENTIFIER, .TOKEN_SHL_ASSIGN, .TOKEN_IDENTIFIER, .TOKEN_EOF] ∧
    tokenize "@" = [⟨.TOKEN_ERROR, "Unexpected character: '@'", 1, 1⟩] := by
  refine ⟨rfl, rfl, rfl, rfl, rfl, rfl⟩

/-- Claim C9: rendering the parsed program `int add(int a,int b){return
a+b;}` produces text containing the exact substring
`Return the sum of 'a' and 'b'.`; binary `+` renders through the
"the sum of X and Y" template, identifiers render wrapped in single
quotes, and a return-with-value statement renders as `Return <value>.`. -/
theorem claim_C9 :
    (∃ a b, render_of "int add(int a,int b){return a+b;}" 200 =
      a ++ "Return the sum of 'a' and 'b'." ++ b) ∧
    (∀ l r, translate_expr_node (.binary_op "+" l r) =
      "the sum of " ++ translate_expression l ++ " and " ++
        translate_expression r) ∧
    (∀ name, translate_expr_node (.identifier name) = "'" ++ name ++ "'") ∧
    (∀ ctx v step, translate_stmt_node ctx (.return_stmt (some v)) step =
      append_line (append_line ctx
        (step_pfx step ++ "Return " ++ translate_expr_node v ++ ".")) "") := by
  refine ⟨⟨"Programme Description\n=====================\n\nThis programme consists of one function.\n\nFunction: add\n-------------\nThis function accepts 2 parameters and returns a value of type int.\n\nParameters:\n  â€¢ 'a': int\n  â€¢ 'b': int\n\nThe function performs the following steps:\n\n  1. ", "\n  \n\n", rfl⟩, fun l r => rfl, fun name => rfl, fun ctx v step => rfl⟩

/-- Claim C10: `translate_to_english` is total with no error channel: on a
`NULL` argument or a non-`Program` root it returns exactly
`"Error: Invalid programme structure.\n"`; a `NULL` expression renders as
"nothing" and an expression node of a kind outside the dispatch table
renders as "an expression". -/
theorem claim_C10 :
    translate_to_english none = "Error: Invalid programme structure.\n" ∧
    (∀ n, is_program_node n = false →
      translate_to_english (some n) = "Error: Invalid programme structure.\n") ∧
    translate_expression none = "nothing" ∧
    (∀ n, expr_unhandled n = true → translate_expr_node n = "an expression") := by
  refine ⟨rfl, fun n h => ?_, rfl, fun n h => ?_⟩
  · cases n <;> first | rfl | exact absurd h (by simp [is_program_node])
  · cases n <;> first | rfl | exact absurd h (by simp [expr_unhandled])

/-- Witness for claim C10 at concrete inputs: a block node is not a valid
root and renders the error text; a `break` node is not an expression kind
and falls back to "an expression". -/
theorem claim_C10_witness :
    translate_to_english (some (.block [])) =
      "Error: Invalid programme structure.\n" ∧
    translate_expr_node .break_stmt = "an expression" :=
  ⟨claim_C10.2.1 (.block []) rfl, claim_C10.2.2.2 .break_stmt rfl⟩

/-- Claim C7: an identifier reference is diagnosed as an undeclared
variable exactly when the scope chain, searched innermost-first, has no
entry for it; checking `int main(){return y;}` fails with the
undeclared-variable diagnostic for `y`. -/
theorem claim_C7 :
    (∀ st name, analyze_expression st (.identifier name) =
      match symbol_table_lookup st.scopes name with
      | some _ => st
      | none => semantic_error st (.undeclared_variable name)) ∧
    (∀ t rest name, symbol_table_lookup (t :: rest) name =
      match symbol_table_lookup_local t name with
      | some s => some s
      | none => symbol_table_lookup rest name) ∧
    check_src "int main(){return y;}" 100 = false ∧
    check_src_diags "int main(){return y;}" 100 =
      [.undeclared_variable "y"] := by
  refine ⟨fun st name => rfl, fun t rest name => rfl, by decide, by decide⟩

/-- Claim C3: whenever the parser finishes within its fuel, it returns a
`NULL` tree exactly when some parse error was recorded, and on an
error-free run the returned tree is a `Program` node. -/
theorem claim_C3 : ∀ fuel toks res, parse_aux fuel toks = some res →
    ((res.1 = none ↔ res.2.had_error = true) ∧
     (res.2.had_error = false → ∃ fs, res.1 = some (.program fs))) := by
  intro fuel toks res h
  simp only [parse_aux] at h
  split at h
  · exact absurd h (by simp)
  · split at h
    · rename_i hp
      cases h
      simp [hp]
    · rename_i hp
      cases h
      exact ⟨by simp [hp], fun _ => ⟨_, rfl⟩⟩

/-- Witness for claim C3: a concrete successful parse. -/
theorem claim_C3_witness :
    ∃ res, parse_aux 100 (tokenize "int f(){return 0;}") = some res ∧
      ((res.1 = none ↔ res.2.had_error = true) ∧
       (res.2.had_error = false → ∃ fs, res.1 = some (.program fs))) :=
  ⟨_, rfl, claim_C3 100 (tokenize "int f(){return 0;}") _ rfl⟩

/-- Counterexample to claim C5 as stated: in `int x`, concatenating the
two lexemes gives `intx`, which re-tokenizes as a single identifier, not
as the keyword `int` followed by an identifier. -/
theorem claim_C5_counterexample :
    tokKinds (tokenize (concat_lexemes (tokenize "int x"))) ≠
      tokKinds (tokenize "int x") := by decide


/-! ### Claim C2: the parser can loop forever.

On the token stream of `int f(){)}` the cursor reaches the stray `)`
(token index 5) inside `parse_block`; `parse_statement` records an error
and returns `NULL` without consuming anything, so the block loop repeats
the identical step forever.  With the fuel embedding this shows up as the
out-of-fuel result for every fuel value.  The lemmas follow the call
chain down to `parse_primary` at the stuck state `c2_stuck h`: each level
either runs out of fuel or returns `NULL` with the cursor unmoved and the
error flag set. -/

theorem c2_primary : ∀ fuel (h : Bool),
    parse_primary fuel (c2_stuck h) = none ∨
    parse_primary fuel (c2_stuck h) = some (none, c2_stuck true) := by
  intro fuel h
  cases fuel with
  | zero => exact Or.inl rfl
  | succ m => exact Or.inr rfl

theorem c2_postfix_loop : ∀ fuel (h : Bool),
    postfix_loop fuel none (c2_stuck h) = none ∨
    postfix_loop fuel none (c2_stuck h) = some (none, c2_stuck h) := by
  intro fuel h
  cases fuel with
  | zero => exact Or.inl rfl
  | succ m => exact Or.inr rfl

theorem c2_postfix : ∀ fuel (h : Bool),
    parse_postfix fuel (c2_stuck h) = none ∨
    parse_postfix fuel (c2_stuck h) = some (none, c2_stuck true) := by
  intro fuel h
  cases fuel with
  | zero => exact Or.inl rfl
  | succ m =>
    have step : parse_postfix (m + 1) (c2_stuck h) =
        (match parse_primary m (c2_stuck h) with
         | none => none
         | some (e, p) => postfix_loop m e p) := rfl
    rcases c2_primary m h with hs | hs <;> rw [step, hs]
    · exact Or.inl rfl
    · exact c2_postfix_loop m true

theorem c2_unary : ∀ fuel (h : Bool),
    parse_unary fuel (c2_stuck h) = none ∨
    parse_unary fuel (c2_stuck h) = some (none, c2_stuck true) := by
  intro fuel h
  cases fuel with
  | zero => exact Or.inl rfl
  | succ m =>
    have step : parse_unary (m + 1) (c2_stuck h) =
        parse_postfix m (c2_stuck h) := rfl
    rw [step]
    exact c2_postfix m h

theorem c2_factor_loop : ∀ fuel (h : Bool),
    parse_factor_loop fuel none (c2_stuck h) = none ∨
    parse_factor_loop fuel none (c2_stuck h) = some (none, c2_stuck h) := by
  intro fuel h
  cases fuel with
  | zero => exact Or.inl rfl
  | succ m => exact Or.inr rfl

theorem c2_factor : ∀ fuel (h : Bool),
    parse_factor fuel (c2_stuck h) = none ∨
    parse_factor fuel (c2_stuck h) = some (none, c2_stuck true) := by
  intro fuel h
  cases fuel with
  | zero => exact Or.inl rfl
  | succ m =>
    have step : parse_factor (m + 1) (c2_stuck h) =
        (match parse_unary m (c2_stuck h) with
         | none => none
         | some (left, p) => parse_factor_loop m left p) := rfl
    rcases c2_unary m h with hs | hs <;> rw [step, hs]
    · exact Or.inl rfl
    · exact c2_factor_loop m true

theorem c2_term_loop : ∀ fuel (h : Bool),
    parse_term_loop fuel none (c2_stuck h) = none ∨
    parse_term_loop fuel none (c2_stuck h) = some (none, c2_stuck h) := by
  intro fuel h
  cases fuel with
  | zero => exact Or.inl rfl
  | succ m => exact Or.inr rfl

theorem c2_term : ∀ fuel (h : Bool),
    parse_term fuel (c2_stuck h) = none ∨
    parse_term fuel (c2_stuck h) = some (none, c2_stuck true) := by
  intro fuel h
  cases fuel with
  | zero => exact Or.inl rfl
  | succ m =>
    have step : parse_term (m + 1) (c2_stuck h) =
        (match parse_factor m (c2_stuck h) with
         | none => none
         | some (left, p) => parse_term_loop m left p) := rfl
    rcases c2_factor m h with hs | hs <;> rw [step, hs]
    · exact Or.inl rfl
    · exact c2_term_loop m true

theorem c2_shift_loop : ∀ fuel (h : Bool),
    parse_shift_loop fuel none (c2_stuck h) = none ∨
    parse_shift_loop fuel none (c2_stuck h) = some (none, c2_stuck h) := by
  intro fuel h
  cases fuel with
  | zero => exact Or.inl rfl
  | succ m => exact Or.inr rfl

theorem c2_shift : ∀ fuel (h : Bool),
    parse_shift fuel (c2_stuck h) = none ∨
    parse_shift fuel (c2_stuck h) = some (none, c2_stuck true) := by
  intro fuel h
  cases fuel with
  | zero => exact Or.inl rfl
  | succ m =>
    have step : parse_shift (m + 1) (c2_stuck h) =
        (match parse_term m (c2_stuck h) with
         | none => none
         | some (left, p) => parse_shift_loop m left p) := rfl
    rcases c2_term m h with hs | hs <;> rw [step, hs]
    · exact Or.inl rfl
    · exact c2_shift_loop m true

theorem c2_comparison_loop : ∀ fuel (h : Bool),
    parse_comparison_loop fuel none (c2_stuck h) = none ∨
    parse_comparison_loop fuel none (c2_stuck h) = some (none, c2_stuck h) := by
  intro fuel h
  cases fuel with
  | zero => exact Or.inl rfl
  | succ m => exact Or.inr rfl

theorem c2_comparison : ∀ fuel (h : Bool),
    parse_comparison fuel (c2_stuck h) = none ∨
    parse_comparison fuel (c2_stuck h) = some (none, c2_stuck true) := by
  intro fuel h
  cases fuel with
  | zero => exact Or.inl rfl
  | succ m =>
    have step : parse_comparison (m + 1) (c2_stuck h) =
        (match parse_shift m (c2_stuck h) with
         | none => none
         | some (left, p) => parse_comparison_loop m left p) := rfl
    rcases c2_shift m h with hs | hs <;> rw [step, hs]
    · exact Or.inl rfl
    · exact c2_comparison_loop m true

theorem c2_equality_loop : ∀ fuel (h : Bool),
    parse_equality_loop fuel none (c2_stuck h) = none ∨
    parse_equality_loop fuel none (c2_stuck h) = some (none, c2_stuck h) := by
  intro fuel h
  cases fuel with
  | zero => exact Or.inl rfl
  | succ m => exact Or.inr rfl

theorem c2_equality : ∀ fuel (h : Bool),
    parse_equality fuel (c2_stuck h) = none ∨
    parse_equality fuel (c2_stuck h) = some (none, c2_stuck true) := by
  intro fuel h
  cases fuel with
  | zero => exact Or.inl rfl
  | succ m =>
    have step : parse_equality (m + 1) (c2_stuck h) =
        (match parse_comparison m (c2_stuck h) with
         | none => none
         | some (left, p) => parse_equality_loop m left p) := rfl
    rcases c2_comparison m h with hs | hs <;> rw [step, hs]
    · exact Or.inl rfl
    · exact c2_equality_loop m true

theorem c2_bitwise_and_loop : ∀ fuel (h : Bool),
    parse_bitwise_and_loop fuel none (c2_stuck h) = none ∨
    parse_bitwise_and_loop fuel none (c2_stuck h) = some (none, c2_stuck h) := by
  intro fuel h
  cases fuel with
  | zero => exact Or.inl rfl
  | succ m => exact Or.inr rfl

theorem c2_bitwise_and : ∀ fuel (h : Bool),
    parse_bitwise_and fuel (c2_stuck h) = none ∨
    parse_bitwise_and fuel (c2_stuck h) = some (none, c2_stuck true) := by
  intro fuel h
  cases fuel with
  | zero => exact Or.inl rfl
  | succ m =>
    have step : parse_bitwise_and (m + 1) (c2_stuck h) =
        (match parse_equality m (c2_stuck h) with
         | none => none
         | some (left, p) => parse_bitwise_and_loop m left p) := rfl
    rcases c2_equality m h with hs | hs <;> rw [step, hs]
    · exact Or.inl rfl
    · exact c2_bitwise_and_loop m true

theorem c2_bitwise_xor_loop : ∀ fuel (h : Bool),
    parse_bitwise_xor_loop fuel none (c2_stuck h) = none ∨
    parse_bitwise_xor_loop fuel none (c2_stuck h) = some (none, c2_stuck h) := by
  intro fuel h
  cases fuel with
  | zero => exact Or.inl rfl
  | succ m => exact Or.inr rfl

theorem c2_bitwise_xor : ∀ fuel (h : Bool),
    parse_bitwise_xor fuel (c2_stuck h) = none ∨
    parse_bitwise_xor fuel (c2_stuck h) = some (none, c2_stuck true) := by
  intro fuel h
  cases fuel with
  | zero => exact Or.inl rfl
  | succ m =>
    have step : parse_bitwise_xor (m + 1) (c2_stuck h) =
        (match parse_bitwise_and m (c2_stuck h) with
         | none => none
         | some (left, p) => parse_bitwise_xor_loop m left p) := rfl
    rcases c2_bitwise_and m h with hs | hs <;> rw [step, hs]
    · exact Or.inl rfl
    · exact c2_bitwise_xor_loop m true

theorem c2_bitwise_or_loop : ∀ fuel (h : Bool),
    parse_bitwise_or_loop fuel none (c2_stuck h) = none ∨
    parse_bitwise_or_loop fuel none (c2_stuck h) = some (none, c2_stuck h) := by
  intro fuel h
  cases fuel with
  | zero => exact Or.inl rfl
  | succ m => exact Or.inr rfl

theorem c2_bitwise_or : ∀ fuel (h : Bool),
    parse_bitwise_or fuel (c2_stuck h) = none ∨
    parse_bitwise_or fuel (c2_stuck h) = some (none, c2_stuck true) := by
  intro fuel h
  cases fuel with
  | zero => exact Or.inl rfl
  | succ m =>
    have step : parse_bitwise_or (m + 1) (c2_stuck h) =
        (match parse_bitwise_xor m (c2_stuck h) with
         | none => none
         | some (left, p) => parse_bitwise_or_loop m left p) := rfl
    rcases c2_bitwise_xor m h with hs | hs <;> rw [step, hs]
    · exact Or.inl rfl
    · exact c2_bitwise_or_loop m true

theorem c2_logical_and_loop : ∀ fuel (h : Bool),
    parse_logical_and_loop fuel none (c2_stuck h) = none ∨
    parse_logical_and_loop fuel none (c2_stuck h) = some (none, c2_stuck h) := by
  intro fuel h
  cases fuel with
  | zero => exact Or.inl rfl
  | succ m => exact Or.inr rfl

theorem c2_logical_and : ∀ fuel (h : Bool),
    parse_logical_and fuel (c2_stuck h) = none ∨
    parse_logical_and fuel (c2_stuck h) = some (none, c2_stuck true) := by
  intro fuel h
  cases fuel with
  | zero => exact Or.inl rfl
  | succ m =>
    have step : parse_logical_and (m + 1) (c2_stuck h) =
        (match parse_bitwise_or m (c2_stuck h) with
         | none => none
         | some (left, p) => parse_logical_and_loop m left p) := rfl
    rcases c2_bitwise_or m h with hs | hs <;> rw [step, hs]
    · exact Or.inl rfl
    · exact c2_logical_and_loop m true

theorem c2_logical_or_loop : ∀ fuel (h : Bool),
    parse_logical_or_loop fuel none (c2_stuck h) = none ∨
    parse_logical_or_loop fuel none (c2_stuck h) = some (none, c2_stuck h) := by
  intro fuel h
  cases fuel with
  | zero => exact Or.inl rfl
  | succ m => exact Or.inr rfl

theorem c2_logical_or : ∀ fuel (h : Bool),
    parse_logical_or fuel (c2_stuck h) = none ∨
    parse_logical_or fuel (c2_stuck h) = some (none, c2_stuck true) := by
  intro fuel h
  cases fuel with
  | zero => exact Or.inl rfl
  | succ m =>
    have step : parse_logical_or (m + 1) (c2_stuck h) =
        (match parse_logical_and m (c2_stuck h) with
         | none => none
         | some (left, p) => parse_logical_or_loop m left p) := rfl
    rcases c2_logical_and m h with hs | hs <;> rw [step, hs]
    · exact Or.inl rfl
    · exact c2_logical_or_loop m true

theorem c2_ternary : ∀ fuel (h : Bool),
    parse_ternary fuel (c2_stuck h) = none ∨
    parse_ternary fuel (c2_stuck h) = some (none, c2_stuck true) := by
  intro fuel h
  cases fuel with
  | zero => exact Or.inl rfl
  | succ m =>
    have step : parse_ternary (m + 1) (c2_stuck h) =
        (match parse_logical_or m (c2_stuck h) with
         | none => none
         | some (cond, p) =>
           let mq := match_tok p .TOKEN_QUESTION
           if mq.1 then
             match parse_expression m mq.2 with
             | none => none
             | some (thenE, p) =>
               let c := consume p .TOKEN_COLON
               match parse_ternary m c.2 with
               | none => none
               | some (elseE, p) => some (some (.ternary cond thenE elseE), p)
           else some (cond, p)) := rfl
    rcases c2_logical_or m h with hs | hs <;> rw [step, hs]
    · exact Or.inl rfl
    · exact Or.inr rfl

theorem c2_assignment : ∀ fuel (h : Bool),
    parse_assignment fuel (c2_stuck h) = none ∨
    parse_assignment fuel (c2_stuck h) = some (none, c2_stuck true) := by
  intro fuel h
  cases fuel with
  | zero => exact Or.inl rfl
  | succ m =>
    have step : parse_assignment (m + 1) (c2_stuck h) =
        (match parse_ternary m (c2_stuck h) with
         | none => none
         | some (e, p) =>
           let ma := match_tok p .TOKEN_ASSIGN
           if ma.1 then
             match parse_assignment m ma.2 with
             | none => none
             | some (v, p) => some (some (.assignment e v), p)
           else if is_compound_assign (peek p).type then
             let a := advance p
             match parse_assignment m a.2 with
             | none => none
             | some (v, p) => some (some (.compound_assign a.1.lexeme e v), p)
           else some (e, p)) := rfl
    rcases c2_ternary m h with hs | hs <;> rw [step, hs]
    · exact Or.inl rfl
    · exact Or.inr rfl

theorem c2_expression : ∀ fuel (h : Bool),
    parse_expression fuel (c2_stuck h) = none ∨
    parse_expression fuel (c2_stuck h) = some (none, c2_stuck true) := by
  intro fuel h
  cases fuel with
  | zero => exact Or.inl rfl
  | succ m =>
    have step : parse_expression (m + 1) (c2_stuck h) =
        parse_assignment m (c2_stuck h) := rfl
    rw [step]
    exact c2_assignment m h

theorem c2_statement : ∀ fuel (h : Bool),
    parse_statement fuel (c2_stuck h) = none ∨
    parse_statement fuel (c2_stuck h) = some (none, c2_stuck true) := by
  intro fuel h
  cases fuel with
  | zero => exact Or.inl rfl
  | succ m =>
    have step : parse_statement (m + 1) (c2_stuck h) =
        (match parse_expression m (c2_stuck h) with
         | none => none
         | some (e, p) => some (e, (consume p .TOKEN_SEMICOLON).2)) := rfl
    rcases c2_expression m h with hs | hs <;> rw [step, hs]
    · exact Or.inl rfl
    · exact Or.inr rfl

theorem c2_block_loop : ∀ fuel (acc : List ASTNode) (h : Bool),
    parse_block_loop fuel acc (c2_stuck h) = none := by
  intro fuel
  induction fuel with
  | zero => intro acc h; rfl
  | succ m ih =>
    intro acc h
    have step : parse_block_loop (m + 1) acc (c2_stuck h) =
        (match parse_statement m (c2_stuck h) with
         | none => none
         | some (stmt, p) =>
           parse_block_loop m
             (match stmt with
              | some s => acc ++ [s]
              | none => acc) p) := rfl
    rcases c2_statement m h with hs | hs <;> rw [step, hs]
    exact ih acc true

theorem c2_block : ∀ fuel (h : Bool),
    parse_block fuel (c2_stuck h) = none := by
  intro fuel h
  cases fuel with
  | zero => rfl
  | succ m =>
    have step : parse_block (m + 1) (c2_stuck h) =
        (match parse_block_loop m [] (c2_stuck h) with
         | none => none
         | some (stmts, p) =>
           some (some (.block stmts), (consume p .TOKEN_RBRACE).2)) := rfl
    rw [step, c2_block_loop m [] h]

theorem c2_function : ∀ fuel,
    parse_function fuel ⟨c2_tokens, 0, false⟩ = none := by
  intro fuel
  cases fuel with
  | zero => rfl
  | succ m =>
    have step : parse_function (m + 1) ⟨c2_tokens, 0, false⟩ =
        (match parse_block m (c2_stuck false) with
         | none => none
         | some (body, p) =>
           some (some (.function "int" "f" [] body), p)) := rfl
    rw [step, c2_block m false]

theorem c2_parse_loop : ∀ fuel,
    parse_loop fuel [] ⟨c2_tokens, 0, false⟩ = none := by
  intro fuel
  cases fuel with
  | zero => rfl
  | succ m =>
    have step : parse_loop (m + 1) [] ⟨c2_tokens, 0, false⟩ =
        (match parse_function m ⟨c2_tokens, 0, false⟩ with
         | none => none
         | some (some f, p) => parse_loop m [f] p
         | some (none, p) =>
           match parse_skip m p with
           | none => none
           | some p => parse_loop m [] p) := rfl
    rw [step, c2_function m]

theorem c2_parse_aux : ∀ fuel, parse_aux fuel c2_tokens = none := by
  intro fuel
  have step : parse_aux fuel c2_tokens =
      (match parse_loop fuel [] ⟨c2_tokens, 0, false⟩ with
       | none => none
       | some (funcs, p) =>
         if p.had_error then some (none, p)
         else some (some (.program funcs), p)) := rfl
  rw [step, c2_parse_loop fuel]

/-- Claim C2 (the code loops): on the token stream of `int f(){)}` (which
ends in an end-of-stream token), `parse` does not terminate — in the fuel
embedding it returns the out-of-fuel marker at every fuel value, because
`parse_statement` consumes no token on the stray `)` and `parse_block`
repeats the identical iteration forever. -/
theorem claim_C2 : ∀ fuel, parse fuel (tokenize "int f(){)}") = none := by
  intro fuel
  show (parse_aux fuel c2_tokens).map Prod.fst = none
  rw [c2_parse_aux fuel]
  rfl

/-! ### Claim C4: the tokenizer terminates with exactly one final
end-of-stream or error token.

Each non-final token consumes at least one character, so the `length + 1`
fuel that `tokenize` passes always reaches the end-of-stream or error
token. -/

theorem skip_line_len (cs : List Char) (ln col : Nat) :
    (skip_line cs ln col).1.length ≤ cs.length := by
  induction cs, ln, col using skip_line.induct with
  | case1 ln col => exact le_refl _
  | case2 rest ln col => simp [skip_line]
  | case3 c rest ln col hc ih =>
    simp only [skip_line, if_neg hc]
    exact ih.trans (Nat.le_succ _)

theorem skip_block_len (cs : List Char) (ln col : Nat) :
    (skip_block cs ln col).1.length ≤ cs.length := by
  induction cs, ln, col using skip_block.induct with
  | case1 ln col => exact le_refl _
  | case2 rest ln col => simp [skip_block]; omega
  | case3 rest ln col hne ih =>
    rw [show skip_block ('\n' :: rest) ln col = skip_block rest (ln + 1) 1
      from by simp [skip_block]]
    exact ih.trans (Nat.le_succ _)
  | case4 c rest ln col hne hc ih =>
    rw [show skip_block (c :: rest) ln col = skip_block rest ln (col + 1)
      from by simp [skip_block, hne, hc]]
    exact ih.trans (Nat.le_succ _)

theorem skip_ws_len (fuel : Nat) (cs : List Char) (ln col : Nat) :
    (skip_ws fuel cs ln col).1.length ≤ cs.length := by
  induction fuel, cs, ln, col using skip_ws.induct with
  | case1 rem ln col => exact le_refl _
  | case2 n ln col => exact le_refl _
  | case3 fuel c rest ln col hc ih =>
    have step : skip_ws (fuel + 1) (c :: rest) ln col =
        skip_ws fuel rest ln (col + 1) := by
      simp only [skip_ws]
      rw [if_pos hc]
    rw [step]
    exact ih.trans (Nat.le_succ _)
  | case4 fuel rest ln col hc ih =>
    have step : skip_ws (fuel + 1) ('\n' :: rest) ln col =
        skip_ws fuel rest (ln + 1) 1 := by simp [skip_ws]
    rw [step]
    exact ih.trans (Nat.le_succ _)
  | case5 fuel rest ln col hc hn r ih =>
    have step : skip_ws (fuel + 1) ('#' :: rest) ln col =
        skip_ws fuel (skip_line ('#' :: rest) ln col).1
          (skip_line ('#' :: rest) ln col).2.1
          (skip_line ('#' :: rest) ln col).2.2 := by simp [skip_ws]
    rw [step]
    exact ih.trans (skip_line_len _ _ _)
  | case6 fuel ln col rest2 hc hn hh r ih =>
    have step : skip_ws (fuel + 1) ('/' :: '/' :: rest2) ln col =
        skip_ws fuel (skip_line ('/' :: '/' :: rest2) ln col).1
          (skip_line ('/' :: '/' :: rest2) ln col).2.1
          (skip_line ('/' :: '/' :: rest2) ln col).2.2 := by simp [skip_ws]
    rw [step]
    exact ih.trans (skip_line_len _ _ _)
  | case7 fuel ln col rest2 r hc hn hh hs ih =>
    have step : skip_ws (fuel + 1) ('/' :: '*' :: rest2) ln col =
        skip_ws fuel (skip_block rest2 ln (col + 2)).1
          (skip_block rest2 ln (col + 2)).2.1
          (skip_block rest2 ln (col + 2)).2.2 := by simp [skip_ws]
    rw [step]
    refine ih.trans ((skip_block_len rest2 ln (col + 2)).trans ?_)
    simp only [List.length_cons]
    omega
  | case8 fuel ln col c2 rest2 h2s h2t hc hn hh =>
    have step : skip_ws (fuel + 1) ('/' :: c2 :: rest2) ln col =
        ('/' :: c2 :: rest2, ln, col) := by
      simp [skip_ws, h2s, h2t]
    rw [step]
  | case9 fuel ln col hc hn hh =>
    have step : skip_ws (fuel + 1) ['/'] ln col = (['/'], ln, col) := by
      simp [skip_ws]
    rw [step]
  | case10 fuel c rest ln col hc hn hh hs =>
    have step : skip_ws (fuel + 1) (c :: rest) ln col =
        (c :: rest, ln, col) := by
      simp only [skip_ws]
      rw [if_neg (by simpa using hc), if_neg hn, if_neg hh, if_neg hs]
    rw [step]

theorem dropWhile_length_le (p : Char → Bool) (l : List Char) :
    (l.dropWhile p).length ≤ l.length := by
  induction l with
  | nil => simp
  | cons c rest ih =>
    rw [List.dropWhile_cons]
    split
    · exact ih.trans (Nat.le_succ _)
    · exact le_refl _

theorem dropWhile_cons_lt (p : Char → Bool) (c : Char) (rest : List Char)
    (h : p c = true) :
    ((c :: rest).dropWhile p).length < (c :: rest).length := by
  rw [List.dropWhile_cons, if_pos h]
  exact Nat.lt_succ_of_le (dropWhile_length_le p rest)

theorem id_start_char {c : Char} (h : is_identifier_start c = true) :
    is_identifier_char c = true := by
  simp only [is_identifier_start, is_identifier_char, Bool.or_eq_true] at *
  rcases h with h | h
  · exact Or.inl (Or.inl h)
  · exact Or.inr h

theorem scan_identifier_progress (c : Char) (rest : List Char) (ln col : Nat)
    (h : is_identifier_char c = true) :
    ((scan_identifier (c :: rest) ln col).2).rem.length <
      (c :: rest).length :=
  dropWhile_cons_lt _ _ _ h

theorem scan_number_progress (c : Char) (rest : List Char) (ln col : Nat)
    (h : is_digit c = true) :
    ((scan_number (c :: rest) ln col).2).rem.length < (c :: rest).length := by
  have h2 := dropWhile_cons_lt is_digit c rest h
  unfold scan_number
  dsimp only
  split
  · rename_i d r2 heq
    split
    · have h1 := dropWhile_length_le is_digit (d :: r2)
      rw [heq] at h2
      simp only [List.length_cons] at *
      omega
    · exact h2
  · exact h2

theorem sqb_rest_len (q : Char) (cs : List Char) (ln col : Nat) :
    ((scan_quoted_body q cs ln col).2.1).length ≤ cs.length := by
  induction cs, ln, col using scan_quoted_body.induct q with
  | case1 ln col => exact le_refl _
  | case2 rest ln col =>
    rw [scan_quoted_body.eq_def]
    dsimp only
    rw [if_pos rfl]
    simp
  | case3 ln col hq =>
    rw [scan_quoted_body.eq_def]
    dsimp only
    rw [if_neg hq, if_pos rfl]
    simp
  | case4 ln col d rest2 p hq ih =>
    rw [scan_quoted_body.eq_def]
    dsimp only
    rw [if_neg hq, if_pos rfl]
    dsimp only
    refine le_trans ih ?_
    simp only [List.length_cons]
    omega
  | case5 c rest ln col hq hb p ih =>
    rw [scan_quoted_body.eq_def]
    dsimp only
    rw [if_neg hq, if_neg hb]
    dsimp only
    refine le_trans ih ?_
    simp only [List.length_cons]
    omega

theorem scan_string_progress (rest : List Char) (ln col : Nat) :
    ((scan_string ('"' :: rest) ln col).2).rem.length <
      ('"' :: rest).length := by
  have step : scan_string ('"' :: rest) ln col =
      (let r := scan_quoted_body '"' rest ln (col + 1)
       if r.2.2.2.2 then
         (⟨.TOKEN_STRING, String.mk ('"' :: r.1), r.2.2.1, col⟩,
          ⟨r.2.1, r.2.2.1, r.2.2.2.1⟩)
       else
         (⟨.TOKEN_ERROR, "Unterminated string", r.2.2.1, col⟩,
          ⟨r.2.1, r.2.2.1, r.2.2.2.1⟩)) := rfl
  rw [step]
  dsimp only
  split <;>
    exact Nat.lt_succ_of_le (sqb_rest_len '"' rest ln (col + 1))

theorem scan_char_progress (rest : List Char) (ln col : Nat) :
    ((scan_char ('\'' :: rest) ln col).2).rem.length <
      ('\'' :: rest).length := by
  have step : scan_char ('\'' :: rest) ln col =
      (let r := scan_quoted_body '\'' rest ln (col + 1)
       if r.2.2.2.2 then
         (⟨.TOKEN_CHAR_LITERAL, String.mk ('\'' :: r.1), r.2.2.1, col⟩,
          ⟨r.2.1, r.2.2.1, r.2.2.2.1⟩)
       else
         (⟨.TOKEN_ERROR, "Unterminated character literal", r.2.2.1, col⟩,
          ⟨r.2.1, r.2.2.1, r.2.2.2.1⟩)) := rfl
  rw [step]
  dsimp only
  split <;>
    exact Nat.lt_succ_of_le (sqb_rest_len '\'' rest ln (col + 1))

theorem scan_operator_rem_len (c : Char) (rest : List Char)
    (ln col0 col : Nat) :
    ((scan_operator c rest ln col0 col).2).rem.length ≤ rest.length := by
  unfold scan_operator
  dsimp only
  by_cases h : c = '+'
  · rw [if_pos h]
    all_goals first
      | exact le_refl _
      | (split <;>
          first
            | exact le_refl _
            | (simp only [List.length_cons]; omega))
  · rw [if_neg h]
    by_cases h : c = '-'
    · rw [if_pos h]
      all_goals first
        | exact le_refl _
        | (split <;>
            first
              | exact le_refl _
              | (simp only [List.length_cons]; omega))
    · rw [if_neg h]
      by_cases h : c = '*'
      · rw [if_pos h]
        all_goals first
          | exact le_refl _
          | (split <;>
              first
                | exact le_refl _
                | (simp only [List.length_cons]; omega))
      · rw [if_neg h]
        by_cases h : c = '/'
        · rw [if_pos h]
          all_goals first
            | exact le_refl _
            | (split <;>
                first
                  | exact le_refl _
                  | (simp only [List.length_cons]; omega))
        · rw [if_neg h]
          by_cases h : c = '%'
          · rw [if_pos h]
            all_goals first
              | exact le_refl _
              | (split <;>
                  first
                    | exact le_refl _
                    | (simp only [List.length_cons]; omega))
          · rw [if_neg h]
            by_cases h : c = '='
            · rw [if_pos h]
              all_goals first
                | exact le_refl _
                | (split <;>
                    first
                      | exact le_refl _
                      | (simp only [List.length_cons]; omega))
            · rw [if_neg h]
              by_cases h : c = '!'
              · rw [if_pos h]
                all_goals first
                  | exact le_refl _
                  | (split <;>
                      first
                        | exact le_refl _
                        | (simp only [List.length_cons]; omega))
              · rw [if_neg h]
                by_cases h : c = '<'
                · rw [if_pos h]
                  all_goals first
                    | exact le_refl _
                    | (split <;>
                        first
                          | exact le_refl _
                          | (simp only [List.length_cons]; omega))
                · rw [if_neg h]
                  by_cases h : c = '>'
                  · rw [if_pos h]
                    all_goals first
                      | exact le_refl _
                      | (split <;>
                          first
                            | exact le_refl _
                            | (simp only [List.length_cons]; omega))
                  · rw [if_neg h]
                    by_cases h : c = '&'
                    · rw [if_pos h]
                      all_goals first
                        | exact le_refl _
                        | (split <;>
                            first
                              | exact le_refl _
                              | (simp only [List.length_cons]; omega))
                    · rw [if_neg h]
                      by_cases h : c = '|'
                      · rw [if_pos h]
                        all_goals first
                          | exact le_refl _
                          | (split <;>
                              first
                                | exact le_refl _
                                | (simp only [List.length_cons]; omega))
                      · rw [if_neg h]
                        by_cases h : c = '^'
                        · rw [if_pos h]
                          all_goals first
                            | exact le_refl _
                            | (split <;>
                                first
                                  | exact le_refl _
                                  | (simp only [List.length_cons]; omega))
                        · rw [if_neg h]
                          by_cases h : c = '~'
                          · rw [if_pos h]
                            all_goals first
                              | exact le_refl _
                              | (split <;>
                                  first
                                    | exact le_refl _
                                    | (simp only [List.length_cons]; omega))
                          · rw [if_neg h]
                            by_cases h : c = '?'
                            · rw [if_pos h]
                              all_goals first
                                | exact le_refl _
                                | (split <;>
                                    first
                                      | exact le_refl _
                                      | (simp only [List.length_cons]; omega))
                            · rw [if_neg h]
                              by_cases h : c = ':'
                              · rw [if_pos h]
                                all_goals first
                                  | exact le_refl _
                                  | (split <;>
                                      first
                                        | exact le_refl _
                                        | (simp only [List.length_cons]; omega))
                              · rw [if_neg h]
                                by_cases h : c = '.'
                                · rw [if_pos h]
                                  all_goals first
                                    | exact le_refl _
                                    | (split <;>
                                        first
                                          | exact le_refl _
                                          | (simp only [List.length_cons]; omega))
                                · rw [if_neg h]
                                  by_cases h : c = '('
                                  · rw [if_pos h]
                                    all_goals first
                                      | exact le_refl _
                                      | (split <;>
                                          first
                                            | exact le_refl _
                                            | (simp only [List.length_cons]; omega))
                                  · rw [if_neg h]
                                    by_cases h : c = ')'
                                    · rw [if_pos h]
                                      all_goals first
                                        | exact le_refl _
                                        | (split <;>
                                            first
                                              | exact le_refl _
                                              | (simp only [List.length_cons]; omega))
                                    · rw [if_neg h]
                                      by_cases h : c = '\x7b'
                                      · rw [if_pos h]
                                        all_goals first
                                          | exact le_refl _
                                          | (split <;>
                                              first
                                                | exact le_refl _
                                                | (simp only [List.length_cons]; omega))
                                      · rw [if_neg h]
                                        by_cases h : c = '\x7d'
                                        · rw [if_pos h]
                                          all_goals first
                                            | exact le_refl _
                                            | (split <;>
                                                first
                                                  | exact le_refl _
                                                  | (simp only [List.length_cons]; omega))
                                        · rw [if_neg h]
                                          by_cases h : c = '['
                                          · rw [if_pos h]
                                            all_goals first
                                              | exact le_refl _
                                              | (split <;>
                                                  first
                                                    | exact le_refl _
                                                    | (simp only [List.length_cons]; omega))
                                          · rw [if_neg h]
                                            by_cases h : c = ']'
                                            · rw [if_pos h]
                                              all_goals first
                                                | exact le_refl _
                                                | (split <;>
                                                    first
                                                      | exact le_refl _
                                                      | (simp only [List.length_cons]; omega))
                                            · rw [if_neg h]
                                              by_cases h : c = ';'
                                              · rw [if_pos h]
                                                all_goals first
                                                  | exact le_refl _
                                                  | (split <;>
                                                      first
                                                        | exact le_refl _
                                                        | (simp only [List.length_cons]; omega))
                                              · rw [if_neg h]
                                                by_cases h : c = ','
                                                · rw [if_pos h]
                                                  all_goals first
                                                    | exact le_refl _
                                                    | (split <;>
                                                        first
                                                          | exact le_refl _
                                                          | (simp only [List.length_cons]; omega))
                                                · rw [if_neg h]

theorem lexer_next_token_progress (l : Lexer)
    (h : (lexer_next_token l).1.type ≠ .TOKEN_EOF) :
    ((lexer_next_token l).2).rem.length < l.rem.length := by
  have hsl := skip_ws_len (l.rem.length + 1) l.rem l.line l.column
  unfold lexer_next_token at h ⊢
  dsimp only at h ⊢
  rcases hrem : (skip_ws (l.rem.length + 1) l.rem l.line l.column).1 with
    _ | ⟨c, rest⟩
  · rw [hrem] at h
    exact absurd rfl h
  · rw [hrem] at hsl h
    dsimp only at h ⊢
    split_ifs with h1 h2 h3 h4
    · exact lt_of_lt_of_le
        (scan_identifier_progress c rest _ _ (id_start_char h1)) hsl
    · exact lt_of_lt_of_le (scan_number_progress c rest _ _ h2) hsl
    · subst h3
      exact lt_of_lt_of_le (scan_string_progress rest _ _) hsl
    · subst h4
      exact lt_of_lt_of_le (scan_char_progress rest _ _) hsl
    · refine lt_of_lt_of_le (lt_of_le_of_lt (scan_operator_rem_len c rest _ _ _) ?_) hsl
      exact Nat.lt_succ_self _

theorem tokenize_aux_complete : ∀ (fuel : Nat) (l : Lexer),
    l.rem.length < fuel →
    ∃ ts t, tokenize_aux fuel l = ts ++ [t] ∧
      (t.type = .TOKEN_EOF ∨ t.type = .TOKEN_ERROR) ∧
      ∀ u ∈ ts, u.type ≠ .TOKEN_EOF ∧ u.type ≠ .TOKEN_ERROR := by
  intro fuel
  induction fuel with
  | zero => intro l h; omega
  | succ n ih =>
    intro l h
    by_cases hend : ((lexer_next_token l).1.type = .TOKEN_EOF ∨
        (lexer_next_token l).1.type = .TOKEN_ERROR)
    · refine ⟨[], (lexer_next_token l).1, ?_, hend, by simp⟩
      have hb : ((lexer_next_token l).1.type = TokenType.TOKEN_EOF ||
          (lexer_next_token l).1.type = TokenType.TOKEN_ERROR) = true := by
        rcases hend with he | he <;> simp [he]
      simp only [tokenize_aux]
      rw [if_pos hb]
      simp
    · push_neg at hend
      have hprog := lexer_next_token_progress l hend.1
      obtain ⟨ts, t, heq, hty, hall⟩ := ih (lexer_next_token l).2 (by omega)
      refine ⟨(lexer_next_token l).1 :: ts, t, ?_, hty, ?_⟩
      · simp only [tokenize_aux]
        rw [if_neg (by simp [hend.1, hend.2])]
        rw [heq]
        rfl
      · intro u hu
        rcases List.mem_cons.mp hu with rfl | hu2
        · exact ⟨hend.1, hend.2⟩
        · exact hall u hu2

/-- Claim C4: for every source string, `tokenize` terminates with a
non-empty token list whose final element is the unique end-of-stream or
lexical-error token; no earlier element is either — in particular no
token at all is produced after an error token. -/
theorem claim_C4 (src : String) :
    ∃ ts t, tokenize src = ts ++ [t] ∧
      (t.type = .TOKEN_EOF ∨ t.type = .TOKEN_ERROR) ∧
      ∀ u ∈ ts, u.type ≠ .TOKEN_EOF ∧ u.type ≠ .TOKEN_ERROR :=
  tokenize_aux_complete (src.length + 1) (lexer_create src)
    (Nat.lt_succ_self _)

/-! ### Per-token relexing: helper lemmas for claim C5 -/

theorem tw_mem (p : Char → Bool) (l : List Char) :
    ∀ x ∈ l.takeWhile p, p x = true := by
  induction l with
  | nil => simp
  | cons c rest ih =>
    intro x hx
    rw [List.takeWhile_cons] at hx
    by_cases hc : p c = true
    · rw [if_pos hc] at hx
      rcases List.mem_cons.mp hx with rfl | hx2
      · exact hc
      · exact ih x hx2
    · rw [if_neg hc] at hx
      simp at hx

theorem tw_all (p : Char → Bool) (l : List Char)
    (h : ∀ x ∈ l, p x = true) : l.takeWhile p = l := by
  induction l with
  | nil => rfl
  | cons c rest ih =>
    rw [List.takeWhile_cons, if_pos (h c (by simp))]
    rw [ih (fun x hx => h x (by simp [hx]))]

theorem dw_all (p : Char → Bool) (l : List Char)
    (h : ∀ x ∈ l, p x = true) : l.dropWhile p = [] := by
  induction l with
  | nil => rfl
  | cons c rest ih =>
    rw [List.dropWhile_cons, if_pos (h c (by simp))]
    exact ih (fun x hx => h x (by simp [hx]))

theorem tw_append_all (p : Char → Bool) (l1 l2 : List Char)
    (h : ∀ x ∈ l1, p x = true) :
    (l1 ++ l2).takeWhile p = l1 ++ l2.takeWhile p := by
  induction l1 with
  | nil => rfl
  | cons c rest ih =>
    rw [List.cons_append, List.takeWhile_cons, if_pos (h c (by simp))]
    rw [ih (fun x hx => h x (by simp [hx]))]
    rfl

theorem dw_append_all (p : Char → Bool) (l1 l2 : List Char)
    (h : ∀ x ∈ l1, p x = true) :
    (l1 ++ l2).dropWhile p = l2.dropWhile p := by
  induction l1 with
  | nil => rfl
  | cons c rest ih =>
    rw [List.cons_append, List.dropWhile_cons, if_pos (h c (by simp))]
    exact ih (fun x hx => h x (by simp [hx]))

theorem skip_ws_noop (n : Nat) (c : Char) (rest : List Char) (ln col : Nat)
    (h1 : c ≠ ' ') (h2 : c ≠ '\t') (h3 : c ≠ '\r') (h4 : c ≠ '\n')
    (h5 : c ≠ '#') (h6 : c ≠ '/') :
    skip_ws (n + 1) (c :: rest) ln col = (c :: rest, ln, col) := by
  simp only [skip_ws]
  rw [if_neg (by simp [h1, h2, h3]), if_neg h4, if_neg h5, if_neg h6]

theorem check_keyword_ne (s : String) :
    check_keyword s ≠ .TOKEN_EOF ∧ check_keyword s ≠ .TOKEN_ERROR := by
  unfold check_keyword
  cases hf : keywords.find? (fun kv => kv.1 == s) with
  | none => exact ⟨by decide, by decide⟩
  | some kv =>
    have hall : ∀ p ∈ keywords,
        p.2 ≠ TokenType.TOKEN_EOF ∧ p.2 ≠ TokenType.TOKEN_ERROR := by decide
    exact hall kv (List.mem_of_find?_eq_some hf)

theorem tokenize_aux_nil (n : Nat) (ln col : Nat) :
    tokenize_aux (n + 1) ⟨[], ln, col⟩ = [⟨.TOKEN_EOF, "", ln, col⟩] := rfl

theorem tokenize_aux_step (m : Nat) (l : Lexer) :
    tokenize_aux (m + 1) l =
      (let r := lexer_next_token l
       if r.1.type = .TOKEN_EOF || r.1.type = .TOKEN_ERROR then [r.1]
       else r.1 :: tokenize_aux m r.2) := rfl

theorem tokenize_relex_step (cs : List Char)
    (hpos : 1 ≤ cs.length)
    (hrem : (lexer_next_token ⟨cs, 1, 1⟩).2.rem = [])
    (hne : (lexer_next_token ⟨cs, 1, 1⟩).1.type ≠ .TOKEN_EOF)
    (herr : (lexer_next_token ⟨cs, 1, 1⟩).1.type ≠ .TOKEN_ERROR) :
    tokKinds (tokenize (String.mk cs)) =
      [(lexer_next_token ⟨cs, 1, 1⟩).1.type, .TOKEN_EOF] := by
  obtain ⟨n, hn⟩ : ∃ n, cs.length = n + 1 := ⟨cs.length - 1, by omega⟩
  show tokKinds (tokenize_aux (cs.length + 1) ⟨cs, 1, 1⟩) = _
  rw [hn, tokenize_aux_step]
  dsimp only
  rcases hL : lexer_next_token ⟨cs, 1, 1⟩ with ⟨tok, l2⟩
  rw [hL] at hrem hne herr
  dsimp only at hrem hne herr ⊢
  rw [if_neg (by simp [hne, herr])]
  rcases l2 with ⟨rem2, ln2, col2⟩
  dsimp only at hrem
  subst hrem
  rw [tokenize_aux_nil]
  rfl

theorem relex_identifier (c : Char) (K : List Char)
    (h : is_identifier_start c = true)
    (hK : ∀ x ∈ K, is_identifier_char x = true) :
    tokKinds (tokenize (String.mk (c :: K))) =
      [check_keyword (String.mk (c :: K)), .TOKEN_EOF] := by
  have hnext : lexer_next_token ⟨c :: K, 1, 1⟩ =
      (⟨check_keyword (String.mk (c :: K)), String.mk (c :: K), 1, 1⟩,
       ⟨[], 1, 1 + (c :: K).length⟩) := by
    unfold lexer_next_token
    dsimp only
    rw [skip_ws_noop _ _ _ _ _
        (fun hc => by rw [hc] at h; exact absurd h (by decide))
        (fun hc => by rw [hc] at h; exact absurd h (by decide))
        (fun hc => by rw [hc] at h; exact absurd h (by decide))
        (fun hc => by rw [hc] at h; exact absurd h (by decide))
        (fun hc => by rw [hc] at h; exact absurd h (by decide))
        (fun hc => by rw [hc] at h; exact absurd h (by decide))]
    dsimp only
    rw [if_pos h]
    unfold scan_identifier
    dsimp only
    rw [List.takeWhile_cons, if_pos (id_start_char h), tw_all _ _ hK,
        List.dropWhile_cons, if_pos (id_start_char h), dw_all _ _ hK]
  have key := tokenize_relex_step (c :: K) (by simp)
      (by rw [hnext]) (by rw [hnext]; exact (check_keyword_ne _).1)
      (by rw [hnext]; exact (check_keyword_ne _).2)
  rw [hnext] at key
  exact key

theorem scan_identifier_relex (c : Char) (rest : List Char) (ln col : Nat)
    (h : is_identifier_start c = true) :
    tokKinds (tokenize ((scan_identifier (c :: rest) ln col).1.lexeme)) =
      [(scan_identifier (c :: rest) ln col).1.type, .TOKEN_EOF] := by
  have hlex : (scan_identifier (c :: rest) ln col).1.lexeme =
      String.mk (c :: rest.takeWhile is_identifier_char) := by
    unfold scan_identifier
    dsimp only
    rw [List.takeWhile_cons, if_pos (id_start_char h)]
  have hty : (scan_identifier (c :: rest) ln col).1.type =
      check_keyword (String.mk (c :: rest.takeWhile is_identifier_char)) := by
    unfold scan_identifier
    dsimp only
    rw [List.takeWhile_cons, if_pos (id_start_char h)]
  rw [hlex, hty]
  exact relex_identifier c _ h (tw_mem _ _)

theorem scan_number_type (rem : List Char) (ln col : Nat) :
    (scan_number rem ln col).1.type = .TOKEN_NUMBER := by
  unfold scan_number
  dsimp only
  split
  · split <;> rfl
  · rfl

theorem relex_number_plain (c : Char) (K : List Char)
    (h : is_digit c = true) (hni : is_identifier_start c = false)
    (hK : ∀ x ∈ K, is_digit x = true) :
    tokKinds (tokenize (String.mk (c :: K))) = [.TOKEN_NUMBER, .TOKEN_EOF] := by
  have hnext : lexer_next_token ⟨c :: K, 1, 1⟩ =
      (⟨.TOKEN_NUMBER, String.mk (c :: K), 1, 1⟩,
       ⟨[], 1, 1 + (c :: K).length⟩) := by
    unfold lexer_next_token
    dsimp only
    rw [skip_ws_noop _ _ _ _ _
        (fun hc => by rw [hc] at h; exact absurd h (by decide))
        (fun hc => by rw [hc] at h; exact absurd h (by decide))
        (fun hc => by rw [hc] at h; exact absurd h (by decide))
        (fun hc => by rw [hc] at h; exact absurd h (by decide))
        (fun hc => by rw [hc] at h; exact absurd h (by decide))
        (fun hc => by rw [hc] at h; exact absurd h (by decide))]
    dsimp only
    rw [if_neg (by simp [hni]), if_pos h]
    unfold scan_number
    dsimp only
    rw [List.takeWhile_cons, if_pos h, tw_all _ _ hK,
        List.dropWhile_cons, if_pos h, dw_all _ _ hK]
  have key := tokenize_relex_step (c :: K) (by simp)
      (by rw [hnext]) (by rw [hnext]; simp) (by rw [hnext]; simp)
  rw [hnext] at key
  exact key

theorem relex_number_frac (c : Char) (K : List Char) (d : Char) (K2 : List Char)
    (h : is_digit c = true) (hni : is_identifier_start c = false)
    (hK : ∀ x ∈ K, is_digit x = true)
    (hd : is_digit d = true) (hK2 : ∀ x ∈ K2, is_digit x = true) :
    tokKinds (tokenize (String.mk ((c :: K) ++ '.' :: d :: K2))) =
      [.TOKEN_NUMBER, .TOKEN_EOF] := by
  have hds : List.takeWhile is_digit (c :: (K ++ '.' :: d :: K2)) = c :: K := by
    rw [List.takeWhile_cons, if_pos h, tw_append_all _ _ _ hK,
        List.takeWhile_cons, if_neg (by decide), List.append_nil]
  have hr1 : List.dropWhile is_digit (c :: (K ++ '.' :: d :: K2)) =
      '.' :: d :: K2 := by
    rw [List.dropWhile_cons, if_pos h, dw_append_all _ _ _ hK,
        List.dropWhile_cons, if_neg (by decide)]
  have hds2 : List.takeWhile is_digit (d :: K2) = d :: K2 := by
    rw [List.takeWhile_cons, if_pos hd, tw_all _ _ hK2]
  have hr3 : List.dropWhile is_digit (d :: K2) = [] := by
    rw [List.dropWhile_cons, if_pos hd, dw_all _ _ hK2]
  have hnext : lexer_next_token ⟨(c :: K) ++ '.' :: d :: K2, 1, 1⟩ =
      (⟨.TOKEN_NUMBER, String.mk ((c :: K) ++ '.' :: d :: K2), 1, 1⟩,
       ⟨[], 1, 1 + (c :: K).length + 1 + (d :: K2).length⟩) := by
    rw [List.cons_append]
    unfold lexer_next_token
    dsimp only
    rw [skip_ws_noop _ _ _ _ _
        (fun hc => by rw [hc] at h; exact absurd h (by decide))
        (fun hc => by rw [hc] at h; exact absurd h (by decide))
        (fun hc => by rw [hc] at h; exact absurd h (by decide))
        (fun hc => by rw [hc] at h; exact absurd h (by decide))
        (fun hc => by rw [hc] at h; exact absurd h (by decide))
        (fun hc => by rw [hc] at h; exact absurd h (by decide))]
    dsimp only
    rw [if_neg (by simp [hni]), if_pos h]
    unfold scan_number
    dsimp only
    rw [hds, hr1]
    split
    · rename_i d1 r2 heq
      injection heq with h1 h2
      injection h2 with h3 h4
      subst h3
      subst h4
      rw [if_pos hd, hds2, hr3, List.cons_append]
    · rename_i hcon
      exact (hcon d K2 rfl).elim
  have key := tokenize_relex_step ((c :: K) ++ '.' :: d :: K2) (by simp)
      (by rw [hnext]) (by rw [hnext]; simp) (by rw [hnext]; simp)
  rw [hnext] at key
  exact key

theorem scan_number_relex (c : Char) (rest : List Char) (ln col : Nat)
    (h : is_digit c = true) (hni : is_identifier_start c = false) :
    tokKinds (tokenize ((scan_number (c :: rest) ln col).1.lexeme)) =
      [(scan_number (c :: rest) ln col).1.type, .TOKEN_EOF] := by
  rw [scan_number_type]
  unfold scan_number
  dsimp only
  rw [List.takeWhile_cons, if_pos h]
  split
  · rename_i d r2 heq
    split
    · rename_i hd
      dsimp only
      rw [List.takeWhile_cons, if_pos hd]
      exact relex_number_frac c _ d _ h hni (tw_mem _ _) hd (tw_mem _ _)
    · dsimp only
      exact relex_number_plain c _ h hni (tw_mem _ _)
  · dsimp only
    exact relex_number_plain c _ h hni (tw_mem _ _)

theorem sqb_step_quote (q : Char) (cs : List Char) (ln col : Nat) :
    scan_quoted_body q (q :: cs) ln col = ([q], cs, ln, col + 1, true) := by
  rw [scan_quoted_body.eq_def]
  dsimp only
  rw [if_pos rfl]

theorem sqb_step_backslash (q d : Char) (cs : List Char) (ln col : Nat)
    (hq : ¬ ('\\' = q)) :
    scan_quoted_body q ('\\' :: d :: cs) ln col =
      ('\\' :: d :: (scan_quoted_body q cs
          (if d = '\n' then (ln + 1, 1) else (ln, col + 2)).1
          (if d = '\n' then (ln + 1, 1) else (ln, col + 2)).2).1,
       (scan_quoted_body q cs
          (if d = '\n' then (ln + 1, 1) else (ln, col + 2)).1
          (if d = '\n' then (ln + 1, 1) else (ln, col + 2)).2).2.1,
       (scan_quoted_body q cs
          (if d = '\n' then (ln + 1, 1) else (ln, col + 2)).1
          (if d = '\n' then (ln + 1, 1) else (ln, col + 2)).2).2.2.1,
       (scan_quoted_body q cs
          (if d = '\n' then (ln + 1, 1) else (ln, col + 2)).1
          (if d = '\n' then (ln + 1, 1) else (ln, col + 2)).2).2.2.2.1,
       (scan_quoted_body q cs
          (if d = '\n' then (ln + 1, 1) else (ln, col + 2)).1
          (if d = '\n' then (ln + 1, 1) else (ln, col + 2)).2).2.2.2.2) := by
  rw [scan_quoted_body.eq_def]
  dsimp only
  rw [if_neg hq, if_pos rfl]

theorem sqb_step_ord (q c : Char) (cs : List Char) (ln col : Nat)
    (hq : ¬c = q) (hb : ¬c = '\\') :
    scan_quoted_body q (c :: cs) ln col =
      (c :: (scan_quoted_body q cs
          (if c = '\n' then (ln + 1, 1) else (ln, col + 1)).1
          (if c = '\n' then (ln + 1, 1) else (ln, col + 1)).2).1,
       (scan_quoted_body q cs
          (if c = '\n' then (ln + 1, 1) else (ln, col + 1)).1
          (if c = '\n' then (ln + 1, 1) else (ln, col + 1)).2).2.1,
       (scan_quoted_body q cs
          (if c = '\n' then (ln + 1, 1) else (ln, col + 1)).1
          (if c = '\n' then (ln + 1, 1) else (ln, col + 1)).2).2.2.1,
       (scan_quoted_body q cs
          (if c = '\n' then (ln + 1, 1) else (ln, col + 1)).1
          (if c = '\n' then (ln + 1, 1) else (ln, col + 1)).2).2.2.2.1,
       (scan_quoted_body q cs
          (if c = '\n' then (ln + 1, 1) else (ln, col + 1)).1
          (if c = '\n' then (ln + 1, 1) else (ln, col + 1)).2).2.2.2.2) := by
  rw [scan_quoted_body.eq_def]
  dsimp only
  rw [if_neg hq, if_neg hb]

theorem sqb_self (q : Char) : ∀ (cs : List Char) (ln col : Nat),
    (scan_quoted_body q cs ln col).2.2.2.2 = true →
    ∀ ln2 col2,
      (scan_quoted_body q ((scan_quoted_body q cs ln col).1) ln2 col2).1 =
          (scan_quoted_body q cs ln col).1 ∧
      (scan_quoted_body q ((scan_quoted_body q cs ln col).1) ln2 col2).2.1 = [] ∧
      (scan_quoted_body q ((scan_quoted_body q cs ln col).1) ln2 col2).2.2.2.2 =
          true := by
  intro cs ln col
  induction cs, ln, col using scan_quoted_body.induct q with
  | case1 ln col =>
    intro hterm
    simp [scan_quoted_body] at hterm
  | case2 rest ln col =>
    intro hterm ln2 col2
    rw [sqb_step_quote]
    dsimp only
    rw [sqb_step_quote]
    exact ⟨rfl, rfl, rfl⟩
  | case3 ln col hq =>
    intro hterm
    have step : scan_quoted_body q ['\\'] ln col =
        (['\\'], [], ln, col + 1, false) := by
      rw [scan_quoted_body.eq_def]
      dsimp only
      rw [if_neg hq, if_pos rfl]
    rw [step] at hterm
    simp at hterm
  | case4 ln col d rest2 p hq ih =>
    intro hterm ln2 col2
    rw [sqb_step_backslash q d rest2 ln col hq] at hterm ⊢
    dsimp only at hterm ⊢
    rw [sqb_step_backslash q d _ ln2 col2 hq]
    dsimp only
    obtain ⟨hh1, hh2, hh3⟩ := ih hterm
        (if d = '\n' then (ln2 + 1, 1) else (ln2, col2 + 2)).1
        (if d = '\n' then (ln2 + 1, 1) else (ln2, col2 + 2)).2
    exact ⟨congrArg (fun l => '\\' :: d :: l) hh1, hh2, hh3⟩
  | case5 c rest ln col hq hb p ih =>
    intro hterm ln2 col2
    rw [sqb_step_ord q c rest ln col hq hb] at hterm ⊢
    dsimp only at hterm ⊢
    rw [sqb_step_ord q c _ ln2 col2 hq hb]
    dsimp only
    obtain ⟨hh1, hh2, hh3⟩ := ih hterm
        (if c = '\n' then (ln2 + 1, 1) else (ln2, col2 + 1)).1
        (if c = '\n' then (ln2 + 1, 1) else (ln2, col2 + 1)).2
    exact ⟨congrArg (fun l => c :: l) hh1, hh2, hh3⟩

theorem scan_string_relex (rest : List Char) (ln col : Nat)
    (herr : (scan_string ('"' :: rest) ln col).1.type ≠ .TOKEN_ERROR) :
    tokKinds (tokenize ((scan_string ('"' :: rest) ln col).1.lexeme)) =
      [(scan_string ('"' :: rest) ln col).1.type, .TOKEN_EOF] := by
  have hstr : ∀ (cs : List Char) (l c : Nat), scan_string ('"' :: cs) l c =
      (let r := scan_quoted_body '"' cs l (c + 1)
       if r.2.2.2.2 then
         (⟨.TOKEN_STRING, String.mk ('"' :: r.1), r.2.2.1, c⟩,
          ⟨r.2.1, r.2.2.1, r.2.2.2.1⟩)
       else
         (⟨.TOKEN_ERROR, "Unterminated string", r.2.2.1, c⟩,
          ⟨r.2.1, r.2.2.1, r.2.2.2.1⟩)) := fun _ _ _ => rfl
  by_cases hterm : (scan_quoted_body '"' rest ln (col + 1)).2.2.2.2 = true
  case neg =>
    exfalso
    apply herr
    rw [hstr rest]
    dsimp only
    rw [if_neg hterm]
  case pos =>
    rw [hstr rest ln col]
    dsimp only
    rw [if_pos hterm]
    dsimp only
    obtain ⟨hh1, hh2, hh3⟩ := sqb_self '"' rest ln (col + 1) hterm 1 (1 + 1)
    have hnext : lexer_next_token
        ⟨'"' :: (scan_quoted_body '"' rest ln (col + 1)).1, 1, 1⟩ =
        (⟨.TOKEN_STRING,
          String.mk ('"' :: (scan_quoted_body '"' rest ln (col + 1)).1),
          (scan_quoted_body '"' ((scan_quoted_body '"' rest ln (col + 1)).1)
            1 (1 + 1)).2.2.1, 1⟩,
         ⟨[],
          (scan_quoted_body '"' ((scan_quoted_body '"' rest ln (col + 1)).1)
            1 (1 + 1)).2.2.1,
          (scan_quoted_body '"' ((scan_quoted_body '"' rest ln (col + 1)).1)
            1 (1 + 1)).2.2.2.1⟩) := by
      unfold lexer_next_token
      dsimp only
      rw [skip_ws_noop _ _ _ _ _ (by decide) (by decide) (by decide)
          (by decide) (by decide) (by decide)]
      dsimp only
      rw [if_neg (by decide), if_neg (by decide), if_pos rfl]
      rw [hstr _ 1 1]
      dsimp only
      rw [if_pos hh3]
      rw [hh1, hh2]
    have key := tokenize_relex_step
        ('"' :: (scan_quoted_body '"' rest ln (col + 1)).1)
        (by simp) (by rw [hnext]) (by rw [hnext]; simp) (by rw [hnext]; simp)
    rw [hnext] at key
    exact key

theorem scan_char_relex (rest : List Char) (ln col : Nat)
    (herr : (scan_char ('\'' :: rest) ln col).1.type ≠ .TOKEN_ERROR) :
    tokKinds (tokenize ((scan_char ('\'' :: rest) ln col).1.lexeme)) =
      [(scan_char ('\'' :: rest) ln col).1.type, .TOKEN_EOF] := by
  have hstr : ∀ (cs : List Char) (l c : Nat), scan_char ('\'' :: cs) l c =
      (let r := scan_quoted_body '\'' cs l (c + 1)
       if r.2.2.2.2 then
         (⟨.TOKEN_CHAR_LITERAL, String.mk ('\'' :: r.1), r.2.2.1, c⟩,
          ⟨r.2.1, r.2.2.1, r.2.2.2.1⟩)
       else
         (⟨.TOKEN_ERROR, "Unterminated character literal", r.2.2.1, c⟩,
          ⟨r.2.1, r.2.2.1, r.2.2.2.1⟩)) := fun _ _ _ => rfl
  by_cases hterm : (scan_quoted_body '\'' rest ln (col + 1)).2.2.2.2 = true
  case neg =>
    exfalso
    apply herr
    rw [hstr rest]
    dsimp only
    rw [if_neg hterm]
  case pos =>
    rw [hstr rest ln col]
    dsimp only
    rw [if_pos hterm]
    dsimp only
    obtain ⟨hh1, hh2, hh3⟩ := sqb_self '\'' rest ln (col + 1) hterm 1 (1 + 1)
    have hnext : lexer_next_token
        ⟨'\'' :: (scan_quoted_body '\'' rest ln (col + 1)).1, 1, 1⟩ =
        (⟨.TOKEN_CHAR_LITERAL,
          String.mk ('\'' :: (scan_quoted_body '\'' rest ln (col + 1)).1),
          (scan_quoted_body '\'' ((scan_quoted_body '\'' rest ln (col + 1)).1)
            1 (1 + 1)).2.2.1, 1⟩,
         ⟨[],
          (scan_quoted_body '\'' ((scan_quoted_body '\'' rest ln (col + 1)).1)
            1 (1 + 1)).2.2.1,
          (scan_quoted_body '\'' ((scan_quoted_body '\'' rest ln (col + 1)).1)
            1 (1 + 1)).2.2.2.1⟩) := by
      unfold lexer_next_token
      dsimp only
      rw [skip_ws_noop _ _ _ _ _ (by decide) (by decide) (by decide)
          (by decide) (by decide) (by decide)]
      dsimp only
      rw [if_neg (by decide), if_neg (by decide), if_neg (by decide),
          if_pos rfl]
      rw [hstr _ 1 1]
      dsimp only
      rw [if_pos hh3]
      rw [hh1, hh2]
    have key := tokenize_relex_step
        ('\'' :: (scan_quoted_body '\'' rest ln (col + 1)).1)
        (by simp) (by rw [hnext]) (by rw [hnext]; simp) (by rw [hnext]; simp)
    rw [hnext] at key
    exact key

theorem scan_operator_relex (c : Char) (rest : List Char)
    (ln col0 col : Nat)
    (herr : (scan_operator c rest ln col0 col).1.type ≠ .TOKEN_ERROR) :
    tokKinds (tokenize ((scan_operator c rest ln col0 col).1.lexeme)) =
      [(scan_operator c rest ln col0 col).1.type, .TOKEN_EOF] := by
  unfold scan_operator at herr ⊢
  dsimp only at herr ⊢
  by_cases h : c = '+'
  · rw [if_pos h]
    all_goals first
      | (dsimp only; decide)
      | (split <;> (dsimp only; decide))
  · rw [if_neg h] at herr ⊢
    by_cases h : c = '-'
    · rw [if_pos h]
      all_goals first
        | (dsimp only; decide)
        | (split <;> (dsimp only; decide))
    · rw [if_neg h] at herr ⊢
      by_cases h : c = '*'
      · rw [if_pos h]
        all_goals first
          | (dsimp only; decide)
          | (split <;> (dsimp only; decide))
      · rw [if_neg h] at herr ⊢
        by_cases h : c = '/'
        · rw [if_pos h]
          all_goals first
            | (dsimp only; decide)
            | (split <;> (dsimp only; decide))
        · rw [if_neg h] at herr ⊢
          by_cases h : c = '%'
          · rw [if_pos h]
            all_goals first
              | (dsimp only; decide)
              | (split <;> (dsimp only; decide))
          · rw [if_neg h] at herr ⊢
            by_cases h : c = '='
            · rw [if_pos h]
              all_goals first
                | (dsimp only; decide)
                | (split <;> (dsimp only; decide))
            · rw [if_neg h] at herr ⊢
              by_cases h : c = '!'
              · rw [if_pos h]
                all_goals first
                  | (dsimp only; decide)
                  | (split <;> (dsimp only; decide))
              · rw [if_neg h] at herr ⊢
                by_cases h : c = '<'
                · rw [if_pos h]
                  all_goals first
                    | (dsimp only; decide)
                    | (split <;> (dsimp only; decide))
                · rw [if_neg h] at herr ⊢
                  by_cases h : c = '>'
                  · rw [if_pos h]
                    all_goals first
                      | (dsimp only; decide)
                      | (split <;> (dsimp only; decide))
                  · rw [if_neg h] at herr ⊢
                    by_cases h : c = '&'
                    · rw [if_pos h]
                      all_goals first
                        | (dsimp only; decide)
                        | (split <;> (dsimp only; decide))
                    · rw [if_neg h] at herr ⊢
                      by_cases h : c = '|'
                      · rw [if_pos h]
                        all_goals first
                          | (dsimp only; decide)
                          | (split <;> (dsimp only; decide))
                      · rw [if_neg h] at herr ⊢
                        by_cases h : c = '^'
                        · rw [if_pos h]
                          all_goals first
                            | (dsimp only; decide)
                            | (split <;> (dsimp only; decide))
                        · rw [if_neg h] at herr ⊢
                          by_cases h : c = '~'
                          · rw [if_pos h]
                            all_goals first
                              | (dsimp only; decide)
                              | (split <;> (dsimp only; decide))
                          · rw [if_neg h] at herr ⊢
                            by_cases h : c = '?'
                            · rw [if_pos h]
                              all_goals first
                                | (dsimp only; decide)
                                | (split <;> (dsimp only; decide))
                            · rw [if_neg h] at herr ⊢
                              by_cases h : c = ':'
                              · rw [if_pos h]
                                all_goals first
                                  | (dsimp only; decide)
                                  | (split <;> (dsimp only; decide))
                              · rw [if_neg h] at herr ⊢
                                by_cases h : c = '.'
                                · rw [if_pos h]
                                  all_goals first
                                    | (dsimp only; decide)
                                    | (split <;> (dsimp only; decide))
                                · rw [if_neg h] at herr ⊢
                                  by_cases h : c = '('
                                  · rw [if_pos h]
                                    all_goals first
                                      | (dsimp only; decide)
                                      | (split <;> (dsimp only; decide))
                                  · rw [if_neg h] at herr ⊢
                                    by_cases h : c = ')'
                                    · rw [if_pos h]
                                      all_goals first
                                        | (dsimp only; decide)
                                        | (split <;> (dsimp only; decide))
                                    · rw [if_neg h] at herr ⊢
                                      by_cases h : c = '\x7b'
                                      · rw [if_pos h]
                                        all_goals first
                                          | (dsimp only; decide)
                                          | (split <;> (dsimp only; decide))
                                      · rw [if_neg h] at herr ⊢
                                        by_cases h : c = '\x7d'
                                        · rw [if_pos h]
                                          all_goals first
                                            | (dsimp only; decide)
                                            | (split <;> (dsimp only; decide))
                                        · rw [if_neg h] at herr ⊢
                                          by_cases h : c = '['
                                          · rw [if_pos h]
                                            all_goals first
                                              | (dsimp only; decide)
                                              | (split <;> (dsimp only; decide))
                                          · rw [if_neg h] at herr ⊢
                                            by_cases h : c = ']'
                                            · rw [if_pos h]
                                              all_goals first
                                                | (dsimp only; decide)
                                                | (split <;> (dsimp only; decide))
                                            · rw [if_neg h] at herr ⊢
                                              by_cases h : c = ';'
                                              · rw [if_pos h]
                                                all_goals first
                                                  | (dsimp only; decide)
                                                  | (split <;> (dsimp only; decide))
                                              · rw [if_neg h] at herr ⊢
                                                by_cases h : c = ','
                                                · rw [if_pos h]
                                                  all_goals first
                                                    | (dsimp only; decide)
                                                    | (split <;> (dsimp only; decide))
                                                · rw [if_neg h] at herr ⊢
                                                  exact absurd rfl herr

theorem lexer_next_token_relex (l : Lexer)
    (hne : (lexer_next_token l).1.type ≠ .TOKEN_EOF)
    (herr : (lexer_next_token l).1.type ≠ .TOKEN_ERROR) :
    tokKinds (tokenize ((lexer_next_token l).1.lexeme)) =
      [(lexer_next_token l).1.type, .TOKEN_EOF] := by
  unfold lexer_next_token at hne herr ⊢
  dsimp only at hne herr ⊢
  rcases hrem : (skip_ws (l.rem.length + 1) l.rem l.line l.column).1 with
    _ | ⟨c, rest⟩
  · rw [hrem] at hne
    exact absurd rfl hne
  · rw [hrem] at hne herr
    dsimp only at hne herr ⊢
    split_ifs at herr ⊢ with h1 h2 h3 h4
    · exact scan_identifier_relex c rest _ _ h1
    · have hni : is_identifier_start c = false := by
        revert h1
        cases is_identifier_start c <;> simp
      exact scan_number_relex c rest _ _ h2 hni
    · subst h3
      exact scan_string_relex rest _ _ herr
    · subst h4
      exact scan_char_relex rest _ _ herr
    · exact scan_operator_relex c rest _ _ _ herr

theorem tokenize_aux_production : ∀ (fuel : Nat) (l : Lexer) (t : Token),
    t ∈ tokenize_aux fuel l →
    ∃ l2, t = (lexer_next_token l2).1 := by
  intro fuel
  induction fuel with
  | zero => intro l t ht; simp [tokenize_aux] at ht
  | succ n ih =>
    intro l t ht
    rw [tokenize_aux_step] at ht
    dsimp only at ht
    by_cases hb : ((lexer_next_token l).1.type = TokenType.TOKEN_EOF ||
        (lexer_next_token l).1.type = TokenType.TOKEN_ERROR) = true
    · rw [if_pos hb] at ht
      simp only [List.mem_singleton] at ht
      exact ⟨l, ht⟩
    · rw [if_neg hb] at ht
      rcases List.mem_cons.mp ht with rfl | ht2
      · exact ⟨l, rfl⟩
      · exact ih _ t ht2

/-- Claim C5 (corrected): for a source whose token stream contains no
lexical-error token, every produced token other than the final end-of-stream
token re-tokenizes alone to exactly its own kind followed by the
end-of-stream kind.  The spec's original claim — concatenating all lexemes
and re-tokenizing yields the same kind sequence — fails because adjacent
lexemes can merge into one token (see the counterexample). -/
theorem claim_C5 (src : String)
    (hclean : ∀ u ∈ tokenize src, u.type ≠ .TOKEN_ERROR)
    (t : Token) (ht : t ∈ tokenize src) (hne : t.type ≠ .TOKEN_EOF) :
    tokKinds (tokenize t.lexeme) = [t.type, .TOKEN_EOF] := by
  have ht2 : t ∈ tokenize_aux (src.length + 1) (lexer_create src) := ht
  obtain ⟨l2, heq⟩ := tokenize_aux_production _ _ t ht2
  subst heq
  exact lexer_next_token_relex l2 hne (hclean _ ht)

theorem claim_C5_witness :
    tokKinds (tokenize ((⟨.TOKEN_INT, "int", 1, 1⟩ : Token).lexeme)) =
      [(⟨.TOKEN_INT, "int", 1, 1⟩ : Token).type, .TOKEN_EOF] :=
  claim_C5 "int x = 42;" (by decide) ⟨.TOKEN_INT, "int", 1, 1⟩ (by decide)
    (by decide)

/-! ### Diagnostics accumulate: helper lemmas for claims C1 and C6 -/

theorem insert_current_diags (st : SemState) (s : Symbol) :
    (insert_current st s).diags = st.diags := by
  rcases st with ⟨scopes, diags⟩
  cases scopes <;> rfl

theorem insert_current_scopes (st : SemState) (s : Symbol) :
    (insert_current st s).scopes =
      match st.scopes with
      | [] => []
      | t :: rest => { t with head := s :: t.head } :: rest := by
  rcases st with ⟨scopes, diags⟩
  cases scopes <;> rfl

theorem exit_scope_diags (st : SemState) : (exit_scope st).diags = st.diags := by
  rcases st with ⟨scopes, diags⟩
  rcases scopes with _ | ⟨a, _ | ⟨b, rest⟩⟩ <;> rfl

theorem params_fold_diags {α : Type} (f : SemState → α → SemState)
    (hf : ∀ s p, (f s p).diags = s.diags) :
    ∀ (ps : List α) (st : SemState), (ps.foldl f st).diags = st.diags := by
  intro ps
  induction ps with
  | nil => intro st; rfl
  | cons p rest ih =>
    intro st
    rw [List.foldl_cons, ih, hf]

mutual

theorem expr_diags_mono (st : SemState) (n : ASTNode) :
    st.diags <+: (analyze_expression st n).diags := by
  cases n
  case identifier name =>
    simp only [analyze_expression]
    split
    · exact List.prefix_refl _
    · exact List.prefix_append _ _
  case binary_op op l r =>
    exact (expr_opt_diags_mono st l).trans (expr_opt_diags_mono _ r)
  case unary_op op o => exact expr_opt_diags_mono st o
  case function_call name args =>
    refine List.IsPrefix.trans ?_ (expr_opt_list_diags_mono _ args)
    split
    · exact List.prefix_refl _
    · split
      · exact List.prefix_refl _
      · exact List.prefix_append _ _
  case array_access name idx =>
    refine List.IsPrefix.trans ?_ (expr_opt_diags_mono _ idx)
    split
    · exact List.prefix_append _ _
    · split
      · exact List.prefix_append _ _
      · exact List.prefix_refl _
  case assignment t v =>
    exact (expr_opt_diags_mono st t).trans (expr_opt_diags_mono _ v)
  all_goals exact List.prefix_refl _

theorem expr_opt_diags_mono (st : SemState) (o : Option ASTNode) :
    st.diags <+: (analyze_expr_opt st o).diags := by
  cases o with
  | none => exact List.prefix_refl _
  | some n => exact expr_diags_mono st n

theorem expr_opt_list_diags_mono (st : SemState)
    (l : List (Option ASTNode)) :
    st.diags <+: (analyze_expr_opt_list st l).diags := by
  cases l with
  | nil => exact List.prefix_refl _
  | cons a rest =>
    exact (expr_opt_diags_mono st a).trans (expr_opt_list_diags_mono _ rest)

end

mutual

theorem stmt_diags_mono (st : SemState) (n : ASTNode) :
    st.diags <+: (analyze_statement st n).diags := by
  cases n
  case declaration dty name arr size ini =>
    have h1 : st.diags <+:
        (match symbol_table_lookup_local (current_scope st) name with
         | some _ => semantic_error st (.duplicate_variable name)
         | none =>
           insert_current st
             { symbol_create name dty (current_scope st).scope_name 0 with
               is_array := arr }).diags := by
      split
      · exact List.prefix_append _ _
      · rw [insert_current_diags]
    cases ini <;> cases size
    · exact h1
    · exact h1.trans (expr_diags_mono _ _)
    · exact h1.trans (expr_diags_mono _ _)
    · exact (h1.trans (expr_diags_mono _ _)).trans (expr_diags_mono _ _)
  case if_stmt c t e =>
    have h1 := (expr_opt_diags_mono st c).trans
      (stmt_opt_diags_mono (analyze_expr_opt st c) t)
    cases e with
    | none => exact h1
    | some eb => exact h1.trans (stmt_diags_mono _ eb)
  case while_stmt c b =>
    exact (expr_opt_diags_mono st c).trans (stmt_opt_diags_mono _ b)
  case for_stmt i c n b =>
    cases i <;> cases c <;> cases n <;>
      first
        | exact stmt_opt_diags_mono st b
        | exact (stmt_diags_mono st _).trans (stmt_opt_diags_mono _ b)
        | exact (expr_diags_mono st _).trans (stmt_opt_diags_mono _ b)
        | exact ((stmt_diags_mono st _).trans
            (expr_diags_mono _ _)).trans (stmt_opt_diags_mono _ b)
        | exact ((expr_diags_mono st _).trans
            (expr_diags_mono _ _)).trans (stmt_opt_diags_mono _ b)
        | exact (((stmt_diags_mono st _).trans
            (expr_diags_mono _ _)).trans
            (expr_diags_mono _ _)).trans (stmt_opt_diags_mono _ b)
  case return_stmt v =>
    cases v with
    | none => exact List.prefix_refl _
    | some e => exact expr_diags_mono st e
  case block stmts => exact stmt_list_diags_mono st stmts
  all_goals first
    | exact List.prefix_refl _
    | exact expr_diags_mono st _

theorem stmt_opt_diags_mono (st : SemState) (o : Option ASTNode) :
    st.diags <+: (analyze_stmt_opt st o).diags := by
  cases o with
  | none => exact List.prefix_refl _
  | some n => exact stmt_diags_mono st n

theorem stmt_list_diags_mono (st : SemState) (l : List ASTNode) :
    st.diags <+: (analyze_stmt_list st l).diags := by
  cases l with
  | nil => exact List.prefix_refl _
  | cons s rest =>
    exact (stmt_diags_mono st s).trans (stmt_list_diags_mono _ rest)

end

theorem function_diags_mono (st : SemState) (f : ASTNode) :
    st.diags <+: (analyze_function st f).diags := by
  cases f
  case function rt name params body =>
    simp only [analyze_function]
    split
    · exact List.prefix_append _ _
    · rw [exit_scope_diags]
      refine List.IsPrefix.trans ?_ (stmt_opt_diags_mono _ body)
      rw [params_fold_diags _ (fun s p => insert_current_diags s _) params]
      exact List.prefix_refl _
  all_goals exact List.prefix_refl _

theorem node_fold_diags_mono : ∀ (fs : List ASTNode) (st : SemState),
    st.diags <+: (fs.foldl analyze_function st).diags := by
  intro fs
  induction fs with
  | nil => intro st; exact List.prefix_refl _
  | cons f rest ih =>
    intro st
    exact (function_diags_mono st f).trans (ih _)

/-- Claim C1 (amended): the checker walks every top-level function in
order and only ever appends diagnostics (no global early abort, nothing
discarded), and reports success exactly when the tree is non-`NULL` and
zero diagnostics were recorded; however a function whose name duplicates an
earlier global function is dismissed with just the duplicate diagnostic —
its parameters and body are not visited. -/
theorem claim_C1 :
    (∀ p : Option ASTNode, analyze_semantics p = true ↔
      (p.isSome = true ∧ semantic_diags p = [])) ∧
    (∀ st fs, analyze_node st (.program fs) = fs.foldl analyze_function st) ∧
    (∀ st f, st.diags <+: (analyze_function st f).diags) ∧
    (∀ st fs, st.diags <+: (analyze_node st (.program fs)).diags) ∧
    (∀ st rt name params body,
      (symbol_table_lookup_local (global_scope st) name).isSome = true →
      analyze_function st (.function rt name params body) =
        semantic_error st (.duplicate_function name)) := by
  refine ⟨?_, fun st fs => rfl, function_diags_mono,
    fun st fs => node_fold_diags_mono fs st, ?_⟩
  · intro p
    cases p with
    | none => simp [analyze_semantics]
    | some prog =>
      simp [analyze_semantics, semantic_diags, List.isEmpty_iff]
  · intro st rt name params body h
    obtain ⟨s, hs⟩ := Option.isSome_iff_exists.mp h
    simp [analyze_function, hs]

/-- Witness for claim C1: success on a concrete clean program, and
the duplicate-function dismissal at a concrete analyzer state. -/
theorem claim_C1_witness :
    analyze_semantics (some (.program [])) = true ∧
    analyze_function ⟨[⟨[symbol_create "f" "int" "global" 0], "global"⟩], []⟩
        (.function "int" "f" [] none) =
      semantic_error ⟨[⟨[symbol_create "f" "int" "global" 0], "global"⟩], []⟩
        (.duplicate_function "f") :=
  ⟨(claim_C1.1 (some (.program []))).mpr ⟨rfl, rfl⟩,
   claim_C1.2.2.2.2 _ "int" "f" [] none (by decide)⟩

/-- Counterexample to claim C1 as stated: in
`int f(){return 0;} int f(){return y;}` (parsed by the real parser), the
undeclared variable `y` sits in the body of the duplicate `f`; the checker
records only the duplicate-function diagnostic, while the whole-tree
reading of the claim also records the undeclared-variable diagnostic. -/
theorem claim_C1_counterexample :
    ∃ p, parse 400 (tokenize "int f(){return 0;} int f(){return y;}") =
        some p ∧
      semantic_diags p = [.duplicate_function "f"] ∧
      semantic_diags_spec p =
        [.duplicate_function "f", .undeclared_variable "y"] ∧
      ¬ SemDiag.undeclared_variable "y" ∈ semantic_diags p :=
  ⟨_, rfl, by decide, by decide, by decide⟩

/-- Claim C6: a declaration whose name already has an entry in the
innermost scope is dismissed with exactly the duplicate-declaration
diagnostic and no insertion; a declaration whose name is absent from the
innermost scope (even if an outer scope has it — shadowing) inserts the
symbol into the innermost scope and emits nothing.  The concrete program
of the spec is flagged exactly once. -/
theorem claim_C6 :
    (∀ st dty name arr,
      (symbol_table_lookup_local (current_scope st) name).isSome = true →
      analyze_statement st (.declaration dty name arr none none) =
        semantic_error st (.duplicate_variable name)) ∧
    (∀ st dty name arr,
      symbol_table_lookup_local (current_scope st) name = none →
      analyze_statement st (.declaration dty name arr none none) =
        insert_current st
          { symbol_create name dty (current_scope st).scope_name 0 with
            is_array := arr }) ∧
    check_src_diags "int main(){int x;int x;return 0;}" 200 =
      [.duplicate_variable "x"] := by
  refine ⟨?_, ?_, by decide⟩
  · intro st dty name arr h
    obtain ⟨s, hs⟩ := Option.isSome_iff_exists.mp h
    simp [analyze_statement, hs]
  · intro st dty name arr h
    simp [analyze_statement, h]

/-- Witness for claim C6: a duplicate in the innermost scope at a concrete
state, and a shadowing declaration (same name, outer scope only) at a
concrete state. -/
theorem claim_C6_witness :
    analyze_statement
        ⟨[⟨[symbol_create "x" "int" "f" 0], "f"⟩, ⟨[], "global"⟩], []⟩
        (.declaration "int" "x" false none none) =
      semantic_error
        ⟨[⟨[symbol_create "x" "int" "f" 0], "f"⟩, ⟨[], "global"⟩], []⟩
        (.duplicate_variable "x") ∧
    analyze_statement
        ⟨[⟨[], "f"⟩, ⟨[symbol_create "x" "int" "global" 0], "global"⟩], []⟩
        (.declaration "int" "x" false none none) =
      insert_current
        ⟨[⟨[], "f"⟩, ⟨[symbol_create "x" "int" "global" 0], "global"⟩], []⟩
        { symbol_create "x" "int" "f" 0 with is_array := false } :=
  ⟨claim_C6.1 _ "int" "x" false (by decide),
   claim_C6.2.1 _ "int" "x" false (by decide)⟩

end GbEn
